import Mathlib

/-!
# raxml-ng error models (`src/ErrorModel.cpp`)

A shallow embedding of the sequencing-error / genotype-error probability
engine: the genotype distance table `mut_dist`, the parameter accessors of
`UniformErrorModel` and `GenotypeErrorModel`, the three
`compute_state_probs` routines (Uniform, P17, PT19), the reporting
`operator<<`, and the in-memory `BinaryStream` of `src/io/binary_io.hpp` with
its vector `operator<<` / `operator>>`.

Conventions of the embedding:

* `double` arithmetic is read exactly, over `ℚ`;
* `unsigned int` is a 32-bit machine word, `Nat` with explicit `% 2 ^ 32`;
* anything the C++ leaves undefined (a use of `__builtin_ctz(0)`, an
  out-of-range table or buffer index, a double-to-unsigned conversion that
  does not fit, a failed `assert`) and an exact division by zero is a `Fault`;
* a failed `assert` ends the program through `abort()`: it raises nothing to the
  caller and leaves no object behind (`call_end`);
* the output iterator `clvp` is the list of cells starting at the iterator;
* an 8-byte object (`size_t`, `double`) in a stream is its 64-bit pattern, and
  a call that can throw returns its outcome together with the state it leaves;
* a pointer is an address in a flat 64-bit space, and a pointer sum wraps
  around at `2 ^ 64`.
-/

namespace RaxmlNg

/-! ## Faults and machine-level helpers -/

/-- Ways in which an embedded routine can fail to produce a result. -/
inductive Fault where
  /-- the result of `__builtin_ctz(0)` was used -/
  | undefinedCtz
  /-- the conversion `(unsigned int) x` of a double `x` that does not fit 32 bits -/
  | castOutOfRange
  /-- the access `mut_dist[i][j]` outside the 10x10 table -/
  | tableOutOfBounds
  /-- the access `clvp[k]` outside the buffer of the caller -/
  | bufferOverrun
  /-- a division whose divisor is zero -/
  | divisionByZero
  /-- a failed `assert` -/
  | assertionFailed
  /-- an access `v[i]` outside a `std::vector` -/
  | vectorOutOfRange
  deriving DecidableEq, Repr

/-- How a call of a member function ends, as its caller sees it.  A failed `assert` calls
`abort()`: the program ends there, nothing is raised to the caller and no object is left
to inspect. -/
inductive CallEnd (σ : Type) where
  /-- the call returns and leaves the object in state `s` -/
  | returns (s : σ)
  /-- an error of kind `what` is raised to the caller, the object being in state `s` -/
  | raises (what : String) (s : σ)
  /-- the program is ended by `abort()` -/
  | aborts
  /-- the behaviour is undefined -/
  | undefined

/-- The end of a call of a member function whose body has no `throw` statement, from its
embedded outcome: success is a return, a failed `assert` is `abort()`, any other `Fault`
is undefined behaviour. -/
def call_end {σ : Type} (r : Except Fault Unit × σ) : CallEnd σ :=
  match r.1 with
  | .ok _ => .returns r.2
  | .error .assertionFailed => .aborts
  | .error _ => .undefined

/-- Width of `unsigned int`. -/
def UINT_BITS : Nat := 32

/-- Reduction of a natural number to an `unsigned int`. -/
def toUInt (x : Nat) : Nat := x % 2 ^ UINT_BITS

/-- Unsigned 32-bit subtraction `a - b` (wraps around). -/
def usub (a b : Nat) : Nat := (toUInt a + 2 ^ UINT_BITS - toUInt b) % 2 ^ UINT_BITS

/-- The builtin `__builtin_ctz(x)`: the index of the least significant 1-bit of
the 32-bit word `x`; for `x = 0` the result is undefined (`none`). -/
def builtin_ctz (x : Nat) : Option Nat :=
  (List.range UINT_BITS).find? (fun i => (toUInt x).testBit i)

/-- The builtin `__builtin_popcount(x)`: the number of 1-bits of the 32-bit word `x`. -/
def builtin_popcount (x : Nat) : Nat :=
  ((List.range UINT_BITS).filter (fun i => (toUInt x).testBit i)).length

/-- The expression `(unsigned int) (pow(2, _states)) - 1`: `pow` is exact on powers
of two, the conversion is defined only when the value fits an `unsigned int`. -/
def undef_state (_states : Nat) : Except Fault Nat :=
  if 2 ^ _states < 2 ^ UINT_BITS then .ok (usub (2 ^ _states) 1)
  else .error .castOutOfRange

/-- Use of the value computed by `__builtin_ctz`. -/
def useCtz (state_id : Option Nat) : Except Fault Nat :=
  match state_id with
  | some s => .ok s
  | none => .error .undefinedCtz

/-- Exact division `x / y` of a double by an unsigned count. -/
def fdiv (x : ℚ) (y : Nat) : Except Fault ℚ :=
  if y = 0 then .error .divisionByZero else .ok (x / (y : ℚ))

/-- The assignment `clvp[k] = v`. -/
def writeAt (clvp : List ℚ) (k : Nat) (v : ℚ) : Except Fault (List ℚ) :=
  if k < clvp.length then .ok (clvp.set k v) else .error .bufferOverrun

/-- The loop `for (size_t k = k0; k < k0 + remaining; ++k) body`, on a loop state `σ`. -/
def forLoop {σ : Type} (body : Nat → σ → Except Fault σ) : Nat → Nat → σ → Except Fault σ
  | 0, _, st => .ok st
  | remaining + 1, k, st =>
    match body k st with
    | .error f => .error f
    | .ok st' => forLoop body remaining (k + 1) st'

/-! ## The genotype distance table -/

/-- The macro `HOMO(state)`. -/
def HOMO (state : Nat) : Bool := state < 4

/-- The macro `HETERO(state)`. -/
def HETERO (state : Nat) : Bool := state > 3

/-- The table `static const char mut_dist[10][10]`; rows and columns in the order
AA CC GG TT AC AG AT CG CT GT. -/
def mut_dist : List (List Nat) :=
  [ [0, 2, 2, 2, 1, 1, 1, 2, 2, 2],   -- AA
    [2, 0, 2, 2, 1, 2, 2, 1, 1, 2],   -- CC
    [2, 2, 0, 2, 2, 1, 2, 1, 2, 1],   -- GG
    [2, 2, 2, 0, 2, 2, 1, 2, 1, 1],   -- TT
    [1, 1, 2, 2, 0, 1, 1, 1, 1, 2],   -- AC
    [1, 2, 1, 2, 1, 0, 1, 1, 2, 1],   -- AG
    [1, 2, 2, 1, 1, 1, 0, 2, 1, 1],   -- AT
    [2, 1, 1, 2, 1, 1, 2, 0, 1, 1],   -- CG
    [2, 1, 2, 1, 1, 2, 1, 1, 0, 1],   -- CT
    [2, 2, 1, 1, 2, 1, 1, 1, 1, 0] ]  -- GT

/-- The lookup `mut_dist[i][j]`, defined inside the table only. -/
def mut_dist_at (i j : Nat) : Option Nat :=
  match mut_dist[i]? with
  | some row => row[j]?
  | none => none

/-- The lookup `mut_dist[i][j]` as the code performs it. -/
def lookup_mut_dist (i j : Nat) : Except Fault Nat :=
  match mut_dist_at i j with
  | some v => .ok v
  | none => .error .tableOutOfBounds

/-! ## The models -/

/-- The class `UniformErrorModel`: the state count of the base class and the
sequencing-error rate. -/
structure UniformErrorModel where
  _states : Nat
  _seq_error_rate : ℚ
  deriving DecidableEq, Repr

/-- The class `GenotypeErrorModel` (base of P17 and PT19): the state count of the
base class, the sequencing-error rate and the allelic-dropout rate. -/
structure GenotypeErrorModel where
  _states : Nat
  _seq_error_rate : ℚ
  _dropout_rate : ℚ
  deriving DecidableEq, Repr

/-- Modelled from the spec: the constructor of the genotype models lives in
`ErrorModel.hpp`, which is not part of the sources at hand; the spec says both
variants restrict `_states` to 10. -/
def GenotypeErrorModel.create (e d : ℚ) : GenotypeErrorModel :=
  { _states := 10, _seq_error_rate := e, _dropout_rate := d }

/-- The function `UniformErrorModel::params() const`. -/
def UniformErrorModel.params (M : UniformErrorModel) : List ℚ :=
  [M._seq_error_rate]

/-- The function `UniformErrorModel::param_names() const`. -/
def UniformErrorModel.param_names (_M : UniformErrorModel) : List String :=
  ["SEQ_ERROR"]

/-- The function `UniformErrorModel::params(const doubleVector& pv)`: the outcome of
the call together with the model after it. -/
def UniformErrorModel.set_params (M : UniformErrorModel) (pv : List ℚ) :
    Except Fault Unit × UniformErrorModel :=
  -- assert(pv.size() >= 1);
  if pv.length ≥ 1 then
    match pv with
    | p0 :: _ => (.ok (), { M with _seq_error_rate := p0 })
    | [] => (.error .assertionFailed, M)
  else (.error .assertionFailed, M)

/-- The function `GenotypeErrorModel::params() const`. -/
def GenotypeErrorModel.params (M : GenotypeErrorModel) : List ℚ :=
  [M._seq_error_rate, M._dropout_rate]

/-- The function `GenotypeErrorModel::param_names() const`. -/
def GenotypeErrorModel.param_names (_M : GenotypeErrorModel) : List String :=
  ["SEQ_ERROR", "ADO_RATE"]

/-- The function `GenotypeErrorModel::params(const doubleVector& pv)`: the outcome of
the call together with the model after it. -/
def GenotypeErrorModel.set_params (M : GenotypeErrorModel) (pv : List ℚ) :
    Except Fault Unit × GenotypeErrorModel :=
  -- assert(pv.size() > 0);
  if pv.length > 0 then
    match pv with
    | p0 :: rest =>
      let M1 := { M with _seq_error_rate := p0 }
      -- if (pv.size() > 1) _dropout_rate = pv[1];
      match rest with
      | p1 :: _ => (.ok (), { M1 with _dropout_rate := p1 })
      | [] => (.ok (), M1)
    | [] => (.error .assertionFailed, M)
  else (.error .assertionFailed, M)

/-! ## `compute_state_probs` -/

/-- Body of the loop of `UniformErrorModel::compute_state_probs`. -/
def UniformErrorModel.loop_body (M : UniformErrorModel) (state : Nat)
    (state_id : Option Nat) (bitset bitunset undef : Nat) (k : Nat) (clvp : List ℚ) :
    Except Fault (List ℚ) :=
  if state = undef then
    writeAt clvp k 1
  else do
    let sid ← useCtz state_id
    if k = sid then do
      let v ← fdiv (1 - M._seq_error_rate) bitset
      writeAt clvp k v
    else do
      let v ← fdiv M._seq_error_rate bitunset
      writeAt clvp k v

/-- The function `UniformErrorModel::compute_state_probs(state, clvp)`: the buffer
after the call. -/
def UniformErrorModel.compute_state_probs (M : UniformErrorModel) (state : Nat)
    (clvp : List ℚ) : Except Fault (List ℚ) :=
  let state := toUInt state
  let state_id := builtin_ctz state
  let bitset := builtin_popcount state
  let bitunset := usub M._states bitset
  match undef_state M._states with
  | .error f => .error f
  | .ok undef => forLoop (M.loop_body state state_id bitset bitunset undef) M._states 0 clvp

/-- Body of the loop of `P17GenotypeErrorModel::compute_state_probs`; the loop
state is the buffer and the local `sum_lh`. -/
def P17GenotypeErrorModel.loop_body (M : GenotypeErrorModel) (state : Nat)
    (state_id : Option Nat) (undef : Nat) (k : Nat) (st : List ℚ × ℚ) :
    Except Fault (List ℚ × ℚ) :=
  let one_3 : ℚ := 1 / 3
  let one_6 : ℚ := 1 / 6
  let e := M._seq_error_rate
  let d := M._dropout_rate
  if state = undef then do
    let clvp ← writeAt st.1 k 1
    pure (clvp, st.2)
  else do
    let sid ← useCtz state_id
    let v ←
      if k = sid then
        if HOMO sid then pure (1 - e + (1 / 2) * e * d)
        else pure (1 - e - d + e * d)
      else do
        let dist ← lookup_mut_dist sid k
        if dist = 1 then
          if HOMO k then pure ((1 - d) * e * one_3)
          else if HOMO sid then pure ((1 / 2) * d + one_6 * e - one_3 * e * d)
          else pure ((1 - d) * e * one_6)
        else if HOMO sid then pure (one_6 * e * d)
        else pure (0 : ℚ)
    let clvp ← writeAt st.1 k v
    -- sum_lh += clvp[k];
    pure (clvp, st.2 + v)

/-- The function `P17GenotypeErrorModel::compute_state_probs(state, clvp)`: the
buffer after the call. -/
def P17GenotypeErrorModel.compute_state_probs (M : GenotypeErrorModel) (state : Nat)
    (clvp : List ℚ) : Except Fault (List ℚ) :=
  let state := toUInt state
  let state_id := builtin_ctz state
  match undef_state M._states with
  | .error f => .error f
  | .ok undef =>
    match forLoop (P17GenotypeErrorModel.loop_body M state state_id undef) M._states 0 (clvp, 0) with
    | .error f => .error f
    | .ok st => .ok st.1

/-- Body of the loop of `PT19GenotypeErrorModel::compute_state_probs`; the loop
state is the buffer and the local `sum_lh`. -/
def PT19GenotypeErrorModel.loop_body (M : GenotypeErrorModel) (state : Nat)
    (state_id : Option Nat) (undef : Nat) (k : Nat) (st : List ℚ × ℚ) :
    Except Fault (List ℚ × ℚ) :=
  let one_3 : ℚ := 1 / 3
  let one_6 : ℚ := 1 / 6
  let one_8 : ℚ := 1 / 8
  let three_8 : ℚ := 3 / 8
  let one_12 : ℚ := 1 / 12
  let e := M._seq_error_rate
  let d := M._dropout_rate
  if state = undef then do
    let clvp ← writeAt st.1 k 1
    pure (clvp, st.2)
  else do
    let sid ← useCtz state_id
    let v ←
      if k = sid then
        -- 0 letters away
        if HOMO sid then pure (1 - e + (1 / 2) * e * d)
        else pure ((1 - d) * (1 - e) + one_12 * e * d)
      else do
        let dist ← lookup_mut_dist sid k
        if dist = 1 then
          -- 1 letter away
          if HOMO k then pure (one_12 * e * d + one_3 * (1 - d) * e)
          else if HOMO sid then pure ((1 / 2) * d + one_6 * e - three_8 * e * d)
          else pure (one_6 * e - one_8 * e * d)
        else
          -- 2 letters away
          if HOMO sid then pure (one_12 * e * d)
          else pure (0 : ℚ)
    let clvp ← writeAt st.1 k v
    -- sum_lh += clvp[k];
    pure (clvp, st.2 + v)

/-- The function `PT19GenotypeErrorModel::compute_state_probs(state, clvp)`: the
buffer after the call. -/
def PT19GenotypeErrorModel.compute_state_probs (M : GenotypeErrorModel) (state : Nat)
    (clvp : List ℚ) : Except Fault (List ℚ) :=
  let state := toUInt state
  let state_id := builtin_ctz state
  match undef_state M._states with
  | .error f => .error f
  | .ok undef =>
    match forLoop (PT19GenotypeErrorModel.loop_body M state state_id undef) M._states 0 (clvp, 0) with
    | .error f => .error f
    | .ok st => .ok st.1

/-! ## Closed forms of the values written by the genotype loops -/

/-- Value stored in `clvp[k]` by the loop body of P17 when the mask is not the
undefined state and `__builtin_ctz` gave `s` (both indices inside the table). -/
def P17_value (e d : ℚ) (s k : Nat) : ℚ :=
  if k = s then
    if HOMO s then 1 - e + (1 / 2) * e * d else 1 - e - d + e * d
  else if mut_dist_at s k = some 1 then
    if HOMO k then (1 - d) * e * (1 / 3)
    else if HOMO s then (1 / 2) * d + (1 / 6) * e - (1 / 3) * e * d
    else (1 - d) * e * (1 / 6)
  else if HOMO s then (1 / 6) * e * d
  else 0

/-- Value stored in `clvp[k]` by the loop body of PT19 when the mask is not the
undefined state and `__builtin_ctz` gave `s` (both indices inside the table). -/
def PT19_value (e d : ℚ) (s k : Nat) : ℚ :=
  if k = s then
    if HOMO s then 1 - e + (1 / 2) * e * d else (1 - d) * (1 - e) + (1 / 12) * e * d
  else if mut_dist_at s k = some 1 then
    if HOMO k then (1 / 12) * e * d + (1 / 3) * (1 - d) * e
    else if HOMO s then (1 / 2) * d + (1 / 6) * e - (3 / 8) * e * d
    else (1 / 6) * e - (1 / 8) * e * d
  else if HOMO s then (1 / 12) * e * d
  else 0

/-! ## Spec-side notions used in the statements -/

/-- Spec-side reading of "s is the index of the lowest set bit of m". -/
def IsLowestSetBit (m s : Nat) : Prop :=
  m.testBit s = true ∧ ∀ j < s, m.testBit j = false

instance (m s : Nat) : Decidable (IsLowestSetBit m s) := by
  unfold IsLowestSetBit; infer_instance

/-- Rounding of a rational to four decimals (half up). -/
def roundTo4 (x : ℚ) : ℚ := (⌊x * 10000 + 1 / 2⌋ : ℤ) / 10000

/-- Spec-side reading of the ten genotype states as unordered allele pairs (A = 0,
C = 1, G = 2, T = 3), in the order AA CC GG TT AC AG AT CG CT GT of the comments of
`mut_dist`. -/
def genotype_alleles (i : Nat) : Multiset Nat :=
  match i with
  | 0 => {0, 0} | 1 => {1, 1} | 2 => {2, 2} | 3 => {3, 3}
  | 4 => {0, 1} | 5 => {0, 2} | 6 => {0, 3}
  | 7 => {1, 2} | 8 => {1, 3} | 9 => {2, 3}
  | _ => ∅

/-- Spec-side number of allele substitutions between two genotypes: two minus the
size of the multiset intersection of their allele pairs. -/
def allele_substitutions (i j : Nat) : Nat :=
  2 - Multiset.card (genotype_alleles i ∩ genotype_alleles j)

/-! ## Parameter identifiers, the model family and the reporting operator -/

/-- The macro `RAXML_OPT_PARAM_SEQ_ERROR` of `common.h`, `(PLLMOD_OPT_PARAM_USER<<0)`;
the constant `PLLMOD_OPT_PARAM_USER` is defined by libpll and is a parameter here. -/
def RAXML_OPT_PARAM_SEQ_ERROR (PLLMOD_OPT_PARAM_USER : Nat) : Nat :=
  PLLMOD_OPT_PARAM_USER <<< 0

/-- The macro `RAXML_OPT_PARAM_ADO_RATE` of `common.h`, `(PLLMOD_OPT_PARAM_USER<<1)`. -/
def RAXML_OPT_PARAM_ADO_RATE (PLLMOD_OPT_PARAM_USER : Nat) : Nat :=
  PLLMOD_OPT_PARAM_USER <<< 1

/-- The function `UniformErrorModel::param_ids() const`. -/
def UniformErrorModel.param_ids (_M : UniformErrorModel) (PLLMOD_OPT_PARAM_USER : Nat) :
    List Nat :=
  [RAXML_OPT_PARAM_SEQ_ERROR PLLMOD_OPT_PARAM_USER]

/-- The function `GenotypeErrorModel::param_ids() const`. -/
def GenotypeErrorModel.param_ids (_M : GenotypeErrorModel) (PLLMOD_OPT_PARAM_USER : Nat) :
    List Nat :=
  [RAXML_OPT_PARAM_SEQ_ERROR PLLMOD_OPT_PARAM_USER, RAXML_OPT_PARAM_ADO_RATE PLLMOD_OPT_PARAM_USER]

/-- The class family behind `const ErrorModel&`: the three concrete models that the
virtual calls dispatch to. -/
inductive ErrorModel where
  | uniform (M : UniformErrorModel)
  | p17 (M : GenotypeErrorModel)
  | pt19 (M : GenotypeErrorModel)
  deriving DecidableEq, Repr

/-- The virtual call `m.param_ids()`. -/
def ErrorModel.param_ids (m : ErrorModel) (PLLMOD_OPT_PARAM_USER : Nat) : List Nat :=
  match m with
  | .uniform M => M.param_ids PLLMOD_OPT_PARAM_USER
  | .p17 M => M.param_ids PLLMOD_OPT_PARAM_USER
  | .pt19 M => M.param_ids PLLMOD_OPT_PARAM_USER

/-- The virtual call `m.param_names()`. -/
def ErrorModel.param_names (m : ErrorModel) : List String :=
  match m with
  | .uniform M => M.param_names
  | .p17 M => M.param_names
  | .pt19 M => M.param_names

/-- The virtual call `m.params()`. -/
def ErrorModel.params (m : ErrorModel) : List ℚ :=
  match m with
  | .uniform M => M.params
  | .p17 M => M.params
  | .pt19 M => M.params

/-- The virtual call `m.compute_state_probs(state, clvp)`. -/
def ErrorModel.compute_state_probs (m : ErrorModel) (state : Nat) (clvp : List ℚ) :
    Except Fault (List ℚ) :=
  match m with
  | .uniform M => M.compute_state_probs state clvp
  | .p17 M => P17GenotypeErrorModel.compute_state_probs M state clvp
  | .pt19 M => PT19GenotypeErrorModel.compute_state_probs M state clvp

/-- One item pushed into a `LogStream`. -/
inductive LogItem where
  | text (s : String)
  | number (v : ℚ)
  deriving DecidableEq, Repr

/-- Body of the loop of `operator<<(LogStream&, const ErrorModel&)`:
`stream << ",  " << names[i] << ": " << values[i]`. -/
def report_loop_body (names : List String) (values : List ℚ) (i : Nat)
    (stream : List LogItem) : Except Fault (List LogItem) :=
  match names[i]?, values[i]? with
  | some n, some v => .ok (stream ++ [.text ",  ", .text n, .text ": ", .number v])
  | _, _ => .error .vectorOutOfRange

/-- The function `operator<<(LogStream& stream, const ErrorModel& m)`: the outcome and
the items in the stream after the call.  The result `name` of the virtual `m.name()`
is declared in `ErrorModel.hpp` and is a parameter here. -/
def report (stream : List LogItem) (name : String) (m : ErrorModel) :
    Except Fault Unit × List LogItem :=
  let stream := stream ++ [.text name]
  let names := m.param_names
  let values := m.params
  -- assert(names.size() == values.size());
  if names.length = values.length then
    match forLoop (report_loop_body names values) names.length 0 stream with
    | .ok out => (.ok (), out)
    | .error f => (.error f, stream)
  else (.error .assertionFailed, stream)

/-! ## The value computed by one loop iteration, apart from the buffer -/

/-- Value that one iteration of the loop of `UniformErrorModel::compute_state_probs`
assigns to `clvp[k]`, or the fault met while computing it. -/
def UniformErrorModel.entry (M : UniformErrorModel) (state : Nat)
    (state_id : Option Nat) (bitset bitunset undef : Nat) (k : Nat) : Except Fault ℚ :=
  if state = undef then .ok 1
  else do
    let sid ← useCtz state_id
    if k = sid then fdiv (1 - M._seq_error_rate) bitset
    else fdiv M._seq_error_rate bitunset

/-- Value that one iteration of the loop of `P17GenotypeErrorModel::compute_state_probs`
assigns to `clvp[k]`, or the fault met while computing it. -/
def P17GenotypeErrorModel.entry (M : GenotypeErrorModel) (state : Nat)
    (state_id : Option Nat) (undef : Nat) (k : Nat) : Except Fault ℚ :=
  let e := M._seq_error_rate
  let d := M._dropout_rate
  if state = undef then .ok 1
  else do
    let sid ← useCtz state_id
    if k = sid then
      if HOMO sid then pure (1 - e + (1 / 2) * e * d)
      else pure (1 - e - d + e * d)
    else do
      let dist ← lookup_mut_dist sid k
      if dist = 1 then
        if HOMO k then pure ((1 - d) * e * (1 / 3))
        else if HOMO sid then pure ((1 / 2) * d + (1 / 6) * e - (1 / 3) * e * d)
        else pure ((1 - d) * e * (1 / 6))
      else if HOMO sid then pure ((1 / 6) * e * d)
      else pure (0 : ℚ)

/-- Value that one iteration of the loop of `PT19GenotypeErrorModel::compute_state_probs`
assigns to `clvp[k]`, or the fault met while computing it. -/
def PT19GenotypeErrorModel.entry (M : GenotypeErrorModel) (state : Nat)
    (state_id : Option Nat) (undef : Nat) (k : Nat) : Except Fault ℚ :=
  let e := M._seq_error_rate
  let d := M._dropout_rate
  if state = undef then .ok 1
  else do
    let sid ← useCtz state_id
    if k = sid then
      if HOMO sid then pure (1 - e + (1 / 2) * e * d)
      else pure ((1 - d) * (1 - e) + (1 / 12) * e * d)
    else do
      let dist ← lookup_mut_dist sid k
      if dist = 1 then
        if HOMO k then pure ((1 / 12) * e * d + (1 / 3) * (1 - d) * e)
        else if HOMO sid then pure ((1 / 2) * d + (1 / 6) * e - (3 / 8) * e * d)
        else pure ((1 / 6) * e - (1 / 8) * e * d)
      else
        if HOMO sid then pure ((1 / 12) * e * d)
        else pure (0 : ℚ)

/-- The member `_states` of the base class, through a `const ErrorModel&`. -/
def ErrorModel.states (m : ErrorModel) : Nat :=
  match m with
  | .uniform M => M._states
  | .p17 M => M._states
  | .pt19 M => M._states

/-! ## Binary streams (`src/io/binary_io.hpp`) -/

/-- One `char` of memory. -/
abbrev Byte := Fin 256

/-- The bit pattern of an 8-byte object (a `size_t` or a `double` on the 64-bit
targets). -/
abbrev Word64 := Fin (2 ^ 64)

/-- The value of `sizeof(size_t)` and of `sizeof(double)`. -/
def SIZEOF_WORD : Nat := 8

/-- Ways in which a stream operation can fail. -/
inductive StreamError where
  /-- the exception `std::out_of_range(what)` -/
  | out_of_range (what : String)
  /-- a `memcpy` that leaves the memory of the buffer or of the object -/
  | memoryFault
  deriving DecidableEq, Repr

/-- Width of a pointer and of `size_t`. -/
def ADDR_BITS : Nat := 64

/-- Pointer arithmetic `p + n` on a `char*` with `n` a `size_t`, in the flat address
space: the sum wraps around at `2 ^ 64`. -/
def ptr_add (p n : Nat) : Nat := (p + n) % 2 ^ ADDR_BITS

/-- The class `BinaryStream`: the address `_addr` held by `_buf` and the memory `_buf`
found there, the offset `_ptr - _buf`, and `_size`. -/
structure BinaryStream where
  _addr : Nat
  _buf : List Byte
  _ptr : Nat
  _size : Nat
  deriving DecidableEq, Repr

/-- The constructor `BinaryStream(char * buf, size_t size)`, for a `buf` that holds the
address `addr` of the bytes `buf`. -/
def BinaryStream.create (addr : Nat) (buf : List Byte) (size : Nat) : BinaryStream :=
  { _addr := addr, _buf := buf, _ptr := 0, _size := size }

/-- The function `BinaryStream::size() const`. -/
def BinaryStream.size (s : BinaryStream) : Nat := s._size

/-- The function `BinaryStream::pos() const`. -/
def BinaryStream.pos (s : BinaryStream) : Nat := s._ptr

/-- The function `BinaryStream::reset()`: the stream after `_ptr = _buf`. -/
def BinaryStream.reset (s : BinaryStream) : BinaryStream :=
  { s with _ptr := 0 }

/-- The function `BinaryStream::write(const void *data, size_t size)`, with `data` the
bytes of the source object: the outcome and the stream after the call. -/
def BinaryStream.write (s : BinaryStream) (data : List Byte) (size : Nat) :
    Except StreamError Unit × BinaryStream :=
  -- if (_ptr + size > _buf + _size)
  if ptr_add (s._addr + s._ptr) size > ptr_add s._addr s._size then
    (.error (.out_of_range "BinaryStream::put"), s)
  else if size ≤ data.length ∧ s._ptr + size ≤ s._buf.length then
    -- memcpy(_ptr, data, size); _ptr += size;
    (.ok (), { s with
      _buf := s._buf.take s._ptr ++ data.take size ++ s._buf.drop (s._ptr + size),
      _ptr := s._ptr + size })
  else (.error .memoryFault, s)

/-- The function `BinaryStream::read(void *data, size_t size)`: the outcome, the stream
after the call and the bytes copied into `data`. -/
def BinaryStream.read (s : BinaryStream) (size : Nat) :
    Except StreamError (List Byte) × BinaryStream :=
  -- if (_ptr + size > _buf + _size)
  if ptr_add (s._addr + s._ptr) size > ptr_add s._addr s._size then
    (.error (.out_of_range "BinaryStream::get"), s)
  else if s._ptr + size ≤ s._buf.length then
    -- memcpy(data, _ptr, size); _ptr += size;
    (.ok ((s._buf.drop s._ptr).take size), { s with _ptr := s._ptr + size })
  else (.error .memoryFault, s)

/-- Object representation of an 8-byte object: its bytes in memory order (least
significant first, as on the little-endian targets). -/
def toBytes (x : Word64) : List Byte :=
  (List.range SIZEOF_WORD).map (fun i => ⟨(x.val / 256 ^ i) % 256, Nat.mod_lt _ (by decide)⟩)

/-- The 8-byte object whose object representation is `bs`. -/
def ofBytes (bs : List Byte) : Word64 :=
  ⟨(bs.foldr (fun b acc => b.val + 256 * acc) 0) % 2 ^ 64, Nat.mod_lt _ (Nat.two_pow_pos 64)⟩

/-- The template `operator<<(BasicBinaryStream& stream, T v)` for an 8-byte `T`:
`stream.put(&v, sizeof(T))`. -/
def put_value (s : BinaryStream) (v : Word64) : Except StreamError Unit × BinaryStream :=
  s.write (toBytes v) SIZEOF_WORD

/-- The template `operator>>(BasicBinaryStream& stream, T& v)` for an 8-byte `T`:
`stream.get(&v, sizeof(T))`; `v` keeps its value when the read throws. -/
def get_value (s : BinaryStream) (v : Word64) :
    Except StreamError Unit × BinaryStream × Word64 :=
  match s.read SIZEOF_WORD with
  | (.ok bytes, s1) => (.ok (), s1, ofBytes bytes)
  | (.error err, s1) => (.error err, s1, v)

/-- The loop `for (auto const& v: vec) stream << v;`. -/
def put_elements : BinaryStream → List Word64 → Except StreamError Unit × BinaryStream
  | s, [] => (.ok (), s)
  | s, v :: rest =>
    match put_value s v with
    | (.ok (), s1) => put_elements s1 rest
    | (.error err, s1) => (.error err, s1)

/-- The template `operator<<(BasicBinaryStream& stream, const std::vector<T>& vec)` for
an 8-byte `T`. -/
def put_vector (s : BinaryStream) (vec : List Word64) :
    Except StreamError Unit × BinaryStream :=
  -- stream << vec.size();
  match put_value s ⟨vec.length % 2 ^ 64, Nat.mod_lt _ (Nat.two_pow_pos 64)⟩ with
  | (.ok (), s1) => put_elements s1 vec
  | (.error err, s1) => (.error err, s1)

/-- The loop `for (auto& v: vec) stream >> v;`. -/
def get_elements : BinaryStream → List Word64 →
    Except StreamError Unit × BinaryStream × List Word64
  | s, [] => (.ok (), s, [])
  | s, v :: rest =>
    match get_value s v with
    | (.ok (), s1, v1) =>
      match get_elements s1 rest with
      | (r, s2, rest1) => (r, s2, v1 :: rest1)
    | (.error err, s1, v1) => (.error err, s1, v1 :: rest)

/-- The call `vec.resize(n)`: new elements are value-initialised. -/
def vector_resize (vec : List Word64) (n : Nat) : List Word64 :=
  vec.take n ++ List.replicate (n - vec.length) 0

/-- The template `operator>>(BasicBinaryStream& stream, std::vector<T>& vec)` for an
8-byte `T`: the outcome, the stream and the vector after the call. -/
def get_vector (s : BinaryStream) (vec : List Word64) :
    Except StreamError Unit × BinaryStream × List Word64 :=
  -- size_t vec_size; stream >> vec_size;
  match get_value s 0 with
  | (.ok (), s1, vec_size) => get_elements s1 (vector_resize vec vec_size.val)
  | (.error err, s1, _) => (.error err, s1, vec)

/-- Object representation of an array of 8-byte objects. -/
def arrayBytes : List Word64 → List Byte
  | [] => []
  | v :: rest => toBytes v ++ arrayBytes rest

/-! ## Auxiliary lemmas -/

theorem toUInt_of_lt {x : Nat} (h : x < 2 ^ 32) : toUInt x = x := by
  unfold toUInt UINT_BITS; exact Nat.mod_eq_of_lt h

theorem builtin_ctz_of_lowest {m s : Nat} (hm : m < 2 ^ 32) (hs : IsLowestSetBit m s) :
    builtin_ctz m = some s := by
  have hs32 : s < 32 := by
    by_contra hge
    have hle : 2 ^ 32 ≤ 2 ^ s := Nat.pow_le_pow_right (by norm_num) (by omega)
    have := Nat.testBit_implies_ge hs.1
    omega
  unfold builtin_ctz
  rw [toUInt_of_lt hm]
  simp only [UINT_BITS, List.find?_range_eq_some, List.mem_range]
  refine ⟨hs.1, hs32, ?_⟩
  intro j hj
  simp [hs.2 j hj]

theorem builtin_ctz_zero : builtin_ctz 0 = none := by decide

theorem forLoop_writes {σ : Type} (proj : σ → List ℚ) (g : Nat → ℚ)
    (body : Nat → σ → Except Fault σ) :
    ∀ (r k0 : Nat) (st : σ),
      (∀ k st1, k0 ≤ k → k < k0 + r → k < (proj st1).length →
        ∃ st2, body k st1 = .ok st2 ∧ proj st2 = (proj st1).set k (g k)) →
      k0 + r ≤ (proj st).length →
      ∃ st', forLoop body r k0 st = .ok st' ∧
        (proj st').length = (proj st).length ∧
        (∀ k, k0 ≤ k → k < k0 + r → (proj st')[k]? = some (g k)) ∧
        (∀ k, k < k0 ∨ k0 + r ≤ k → (proj st')[k]? = (proj st)[k]?) := by
  intro r
  induction r with
  | zero =>
    intro k0 st _ _
    exact ⟨st, rfl, rfl, fun k h1 h2 => by omega, fun _ _ => rfl⟩
  | succ r ih =>
    intro k0 st hbody hlen
    obtain ⟨st2, hb, hp⟩ := hbody k0 st (Nat.le_refl _) (by omega) (by omega)
    have hlen2 : (proj st2).length = (proj st).length := by rw [hp, List.length_set]
    obtain ⟨st3, hrun, hl3, hin, hout⟩ := ih (k0 + 1) st2
      (fun k st1 h1 h2 h3 => hbody k st1 (by omega) (by omega) h3) (by omega)
    refine ⟨st3, ?_, by omega, ?_, ?_⟩
    · simp only [forLoop, hb, hrun]
    · intro k h1 h2
      by_cases hk : k = k0
      · subst hk
        rw [hout k (Or.inl (by omega)), hp, List.getElem?_set]
        simp; omega
      · exact hin k (by omega) (by omega)
    · intro k hk
      rw [hout k (by omega), hp, List.getElem?_set_ne (by omega)]

theorem mut_dist_at_isSome : ∀ i < 10, ∀ j < 10, ∃ v, mut_dist_at i j = some v := by
  have h : ∀ i < 10, ∀ j < 10, (mut_dist_at i j).isSome = true := by decide
  intro i hi j hj
  exact Option.isSome_iff_exists.mp (h i hi j hj)

theorem undef_state_ten : undef_state 10 = .ok 1023 := by rfl

theorem lowest_lt_of_lt_pow {m s n : Nat} (hm : m < 2 ^ n) (hs : IsLowestSetBit m s) : s < n := by
  by_contra hge
  have hle : 2 ^ n ≤ 2 ^ s := Nat.pow_le_pow_right (by norm_num) (by omega)
  have := Nat.testBit_implies_ge hs.1
  omega

theorem P17_loop_body_eq (e d : ℚ) (m s k : Nat) (st : List ℚ × ℚ)
    (hm : m ≠ 1023) (hs : s < 10) (hk : k < 10) (hlen : k < st.1.length) :
    ∃ st2, P17GenotypeErrorModel.loop_body (GenotypeErrorModel.create e d) m (some s) 1023 k st
        = .ok st2 ∧ st2.1 = st.1.set k (P17_value e d s k) := by
  obtain ⟨v, hv⟩ := mut_dist_at_isSome s hs k hk
  unfold P17GenotypeErrorModel.loop_body P17_value
  simp only [GenotypeErrorModel.create, hm, if_false, useCtz, lookup_mut_dist, hv, writeAt, hlen,
    if_true, bind, Except.bind, pure, Except.pure]
  by_cases h1 : k = s <;> by_cases h2 : HOMO s = true <;> by_cases h3 : HOMO k = true <;>
    by_cases h4 : v = 1 <;> simp [h1, h2, h3, h4]


theorem P17_compute_eq (e d : ℚ) (m s : Nat) (clvp : List ℚ)
    (h2 : m < 2 ^ 10 - 1) (hs : IsLowestSetBit m s) (hbuf : 10 ≤ clvp.length) :
    ∃ out, P17GenotypeErrorModel.compute_state_probs (GenotypeErrorModel.create e d) m clvp = .ok out ∧
      out.length = clvp.length ∧
      (∀ k, k < 10 → out[k]? = some (P17_value e d s k)) ∧
      (∀ k, 10 ≤ k → out[k]? = clvp[k]?) := by
  have hm32 : m < 2 ^ 32 := by omega
  have hs10 : s < 10 := lowest_lt_of_lt_pow (n := 10) (by omega) hs
  obtain ⟨st, hrun, hlen, hin, hout⟩ :=
    forLoop_writes Prod.fst (P17_value e d s)
      (P17GenotypeErrorModel.loop_body (GenotypeErrorModel.create e d) m (some s) 1023)
      10 0 (clvp, 0)
      (fun k st1 _ hk hl => P17_loop_body_eq e d m s k st1 (by omega) hs10 (by omega) hl)
      (by simpa using hbuf)
  refine ⟨st.1, ?_, hlen, fun k hk => hin k (Nat.zero_le _) (by omega),
    fun k hk => hout k (Or.inr (by omega))⟩
  unfold P17GenotypeErrorModel.compute_state_probs
  simp only [toUInt_of_lt hm32, builtin_ctz_of_lowest hm32 hs]
  have hst : (GenotypeErrorModel.create e d)._states = 10 := rfl
  rw [hst, undef_state_ten]
  simp only [hrun]

/-- C1: `P17GenotypeErrorModel::compute_state_probs` follows the P17 formulas.  For
every error rate `e`, dropout rate `d`, mask `m` with `1 ≤ m < 2^10 - 1` whose lowest
set bit has index `s`, and every `k` in `0..9`, the call on a buffer of at least ten
cells succeeds and the cell `k` of the result holds: for `k = s`, `1 - e + e*d/2` when
`s` is homozygous and `1 - e - d + e*d` otherwise; at distance 1, `(1-d)*e/3` when `k`
is homozygous, else `d/2 + e/6 - e*d/3` when `s` is homozygous, else `(1-d)*e/6`; at
distance 2, `e*d/6` when `s` is homozygous and `0` otherwise. -/
theorem P17_compute_state_probs_formulas (e d : ℚ) (m s k : Nat) (clvp : List ℚ)
    (_h1 : 1 ≤ m) (h2 : m < 2 ^ 10 - 1) (hs : IsLowestSetBit m s) (hk : k < 10)
    (hbuf : 10 ≤ clvp.length) :
    ∃ out, P17GenotypeErrorModel.compute_state_probs (GenotypeErrorModel.create e d) m clvp = .ok out ∧
      (k = s → out[k]? = some (if s < 4 then 1 - e + e * d / 2 else 1 - e - d + e * d)) ∧
      (mut_dist_at s k = some 1 → out[k]? = some
        (if k < 4 then (1 - d) * e / 3
         else if s < 4 then d / 2 + e / 6 - e * d / 3
         else (1 - d) * e / 6)) ∧
      (mut_dist_at s k = some 2 → out[k]? = some (if s < 4 then e * d / 6 else 0)) := by
  obtain ⟨out, hrun, -, hin, -⟩ := P17_compute_eq e d m s clvp h2 hs hbuf
  have hdiag : ∀ i < 10, mut_dist_at i i = some 0 := by decide
  refine ⟨out, hrun, ?_, ?_, ?_⟩
  · intro hks
    rw [hin k hk, P17_value]
    subst hks
    by_cases h : k < 4 <;> (simp [HOMO, h]; try ring)
  · intro hd
    have hne : k ≠ s := by
      rintro rfl
      rw [hdiag k hk] at hd
      exact absurd hd (by decide)
    rw [hin k hk, P17_value]
    by_cases h : k < 4 <;> by_cases h' : s < 4 <;> simp [HOMO, h, h', hne, hd] <;> ring
  · intro hd
    have hne : k ≠ s := by
      rintro rfl
      rw [hdiag k hk] at hd
      exact absurd hd (by decide)
    rw [hin k hk, P17_value]
    by_cases h' : s < 4 <;> (simp [HOMO, h', hne, hd]; try ring)

theorem P17_compute_state_probs_formulas_witness :
    IsLowestSetBit 6 1 ∧
    ∃ out, P17GenotypeErrorModel.compute_state_probs (GenotypeErrorModel.create (1/10) (1/5)) 6
        (List.replicate 10 0) = .ok out ∧
      (4 = 1 → out[4]? = some (if 1 < 4 then 1 - (1/10 : ℚ) + (1/10) * (1/5) / 2 else 1 - 1/10 - 1/5 + (1/10) * (1/5))) ∧
      (mut_dist_at 1 4 = some 1 → out[4]? = some
        (if 4 < 4 then (1 - (1/5 : ℚ)) * (1/10) / 3
         else if 1 < 4 then (1/5 : ℚ) / 2 + (1/10) / 6 - (1/10) * (1/5) / 3
         else (1 - (1/5 : ℚ)) * (1/10) / 6)) ∧
      (mut_dist_at 1 4 = some 2 → out[4]? = some (if 1 < 4 then (1/10 : ℚ) * (1/5) / 6 else 0)) :=
  ⟨by decide,
   P17_compute_state_probs_formulas (1/10) (1/5) 6 1 4 (List.replicate 10 0)
     (by decide) (by decide) (by decide) (by decide) (by decide)⟩

theorem PT19_loop_body_eq (e d : ℚ) (m s k : Nat) (st : List ℚ × ℚ)
    (hm : m ≠ 1023) (hs : s < 10) (hk : k < 10) (hlen : k < st.1.length) :
    ∃ st2, PT19GenotypeErrorModel.loop_body (GenotypeErrorModel.create e d) m (some s) 1023 k st
        = .ok st2 ∧ st2.1 = st.1.set k (PT19_value e d s k) := by
  obtain ⟨v, hv⟩ := mut_dist_at_isSome s hs k hk
  unfold PT19GenotypeErrorModel.loop_body PT19_value
  simp only [GenotypeErrorModel.create, hm, if_false, useCtz, lookup_mut_dist, hv, writeAt, hlen,
    if_true, bind, Except.bind, pure, Except.pure]
  by_cases h1 : k = s <;> by_cases h2 : HOMO s = true <;> by_cases h3 : HOMO k = true <;>
    by_cases h4 : v = 1 <;> simp [h1, h2, h3, h4]

theorem PT19_compute_eq (e d : ℚ) (m s : Nat) (clvp : List ℚ)
    (h2 : m < 2 ^ 10 - 1) (hs : IsLowestSetBit m s) (hbuf : 10 ≤ clvp.length) :
    ∃ out, PT19GenotypeErrorModel.compute_state_probs (GenotypeErrorModel.create e d) m clvp = .ok out ∧
      out.length = clvp.length ∧
      (∀ k, k < 10 → out[k]? = some (PT19_value e d s k)) ∧
      (∀ k, 10 ≤ k → out[k]? = clvp[k]?) := by
  have hm32 : m < 2 ^ 32 := by omega
  have hs10 : s < 10 := lowest_lt_of_lt_pow (n := 10) (by omega) hs
  obtain ⟨st, hrun, hlen, hin, hout⟩ :=
    forLoop_writes Prod.fst (PT19_value e d s)
      (PT19GenotypeErrorModel.loop_body (GenotypeErrorModel.create e d) m (some s) 1023)
      10 0 (clvp, 0)
      (fun k st1 _ hk hl => PT19_loop_body_eq e d m s k st1 (by omega) hs10 (by omega) hl)
      (by simpa using hbuf)
  refine ⟨st.1, ?_, hlen, fun k hk => hin k (Nat.zero_le _) (by omega),
    fun k hk => hout k (Or.inr (by omega))⟩
  unfold PT19GenotypeErrorModel.compute_state_probs
  simp only [toUInt_of_lt hm32, builtin_ctz_of_lowest hm32 hs]
  have hst : (GenotypeErrorModel.create e d)._states = 10 := rfl
  rw [hst, undef_state_ten]
  simp only [hrun]

theorem mut_dist_at_diag : ∀ i < 10, mut_dist_at i i = some 0 := by decide

/-- C2: `PT19GenotypeErrorModel::compute_state_probs` follows the PT19 formulas.  For
every error rate `e`, dropout rate `d`, mask `m` with `1 ≤ m < 2^10 - 1` whose lowest
set bit has index `s`, and every `k` in `0..9`, the call on a buffer of at least ten
cells succeeds and the cell `k` of the result holds: for `k = s`, `1 - e + e*d/2` when
`s` is homozygous and `(1-d)*(1-e) + e*d/12` otherwise; at distance 1,
`e*d/12 + (1-d)*e/3` when `k` is homozygous, else `d/2 + e/6 - (3/8)*e*d` when `s` is
homozygous, else `e/6 - e*d/8`; at distance 2, `e*d/12` when `s` is homozygous and `0`
otherwise. -/
theorem PT19_compute_state_probs_formulas (e d : ℚ) (m s k : Nat) (clvp : List ℚ)
    (_h1 : 1 ≤ m) (h2 : m < 2 ^ 10 - 1) (hs : IsLowestSetBit m s) (hk : k < 10)
    (hbuf : 10 ≤ clvp.length) :
    ∃ out, PT19GenotypeErrorModel.compute_state_probs (GenotypeErrorModel.create e d) m clvp = .ok out ∧
      (k = s → out[k]? = some
        (if s < 4 then 1 - e + e * d / 2 else (1 - d) * (1 - e) + e * d / 12)) ∧
      (mut_dist_at s k = some 1 → out[k]? = some
        (if k < 4 then e * d / 12 + (1 - d) * e / 3
         else if s < 4 then d / 2 + e / 6 - 3 / 8 * e * d
         else e / 6 - e * d / 8)) ∧
      (mut_dist_at s k = some 2 → out[k]? = some (if s < 4 then e * d / 12 else 0)) := by
  obtain ⟨out, hrun, -, hin, -⟩ := PT19_compute_eq e d m s clvp h2 hs hbuf
  refine ⟨out, hrun, ?_, ?_, ?_⟩
  · intro hks
    rw [hin k hk, PT19_value]
    subst hks
    by_cases h : k < 4 <;> (simp [HOMO, h]; try ring)
  · intro hd
    have hne : k ≠ s := by
      rintro rfl
      rw [mut_dist_at_diag k hk] at hd
      exact absurd hd (by decide)
    rw [hin k hk, PT19_value]
    by_cases h : k < 4 <;> by_cases h' : s < 4 <;> simp [HOMO, h, h', hne, hd] <;> ring
  · intro hd
    have hne : k ≠ s := by
      rintro rfl
      rw [mut_dist_at_diag k hk] at hd
      exact absurd hd (by decide)
    rw [hin k hk, PT19_value]
    by_cases h' : s < 4 <;> (simp [HOMO, h', hne, hd]; try ring)

theorem PT19_compute_state_probs_formulas_witness :
    IsLowestSetBit 48 4 ∧
    ∃ out, PT19GenotypeErrorModel.compute_state_probs (GenotypeErrorModel.create (1/10) (1/5)) 48
        (List.replicate 10 0) = .ok out ∧
      (0 = 4 → out[0]? = some
        (if 4 < 4 then 1 - (1/10 : ℚ) + (1/10) * (1/5) / 2
         else (1 - (1/5 : ℚ)) * (1 - 1/10) + (1/10) * (1/5) / 12)) ∧
      (mut_dist_at 4 0 = some 1 → out[0]? = some
        (if 0 < 4 then (1/10 : ℚ) * (1/5) / 12 + (1 - 1/5) * (1/10) / 3
         else if 4 < 4 then (1/5 : ℚ) / 2 + (1/10) / 6 - 3 / 8 * (1/10) * (1/5)
         else (1/10 : ℚ) / 6 - (1/10) * (1/5) / 8)) ∧
      (mut_dist_at 4 0 = some 2 → out[0]? = some (if 4 < 4 then (1/10 : ℚ) * (1/5) / 12 else 0)) :=
  ⟨by decide,
   PT19_compute_state_probs_formulas (1/10) (1/5) 48 4 0 (List.replicate 10 0)
     (by decide) (by decide) (by decide) (by decide) (by decide)⟩

theorem builtin_popcount_eq_countP {m : Nat} (hm : m < 2 ^ 32) :
    builtin_popcount m = (List.range 32).countP (fun i => m.testBit i) := by
  unfold builtin_popcount
  rw [toUInt_of_lt hm, List.countP_eq_length_filter]
  rfl

theorem range32_split {n : Nat} (hn : n ≤ 32) :
    List.range 32 = List.range n ++ List.range' n (32 - n) := by
  have h := List.range'_append 0 n (32 - n) 1
  simp only [Nat.one_mul, Nat.zero_add] at h
  rw [List.range_eq_range', List.range_eq_range', h]
  congr 1
  omega

theorem builtin_popcount_pos {m : Nat} (hm : m < 2 ^ 32) (h0 : 0 < m) :
    0 < builtin_popcount m := by
  rw [builtin_popcount_eq_countP hm, List.countP_pos_iff]
  obtain ⟨i, hi⟩ := Nat.ne_zero_implies_bit_true (Nat.pos_iff_ne_zero.mp h0)
  refine ⟨i, ?_, hi⟩
  rw [List.mem_range]
  by_contra hge
  have hle : 2 ^ 32 ≤ 2 ^ i := Nat.pow_le_pow_right (by norm_num) (by omega)
  have := Nat.testBit_implies_ge hi
  omega

theorem builtin_popcount_lt {m n : Nat} (hn : n < 32) (hm : m < 2 ^ n - 1) :
    builtin_popcount m < n := by
  have hpow : 2 ^ n < 2 ^ 32 := Nat.pow_lt_pow_right (by norm_num) hn
  have hm32 : m < 2 ^ 32 := by omega
  rw [builtin_popcount_eq_countP hm32, range32_split (Nat.le_of_lt hn), List.countP_append]
  have hhigh : List.countP (fun i => m.testBit i) (List.range' n (32 - n)) = 0 := by
    rw [List.countP_eq_zero]
    intro i hi
    rw [List.mem_range'_1] at hi
    have hle : 2 ^ n ≤ 2 ^ i := Nat.pow_le_pow_right (by norm_num) hi.1
    simp [Nat.testBit_lt_two_pow (show m < 2 ^ i by omega)]
  have hle : List.countP (fun i => m.testBit i) (List.range n) ≤ (List.range n).length :=
    List.countP_le_length _
  have hne : List.countP (fun i => m.testBit i) (List.range n) ≠ (List.range n).length := by
    intro heq
    rw [List.countP_eq_length] at heq
    have : m = 2 ^ n - 1 := by
      apply Nat.eq_of_testBit_eq
      intro i
      rw [Nat.testBit_two_pow_sub_one]
      by_cases hi : i < n
      · simpa [hi] using heq i (List.mem_range.mpr hi)
      · have hle : 2 ^ n ≤ 2 ^ i := Nat.pow_le_pow_right (by norm_num) (by omega)
        simp [hi, Nat.testBit_lt_two_pow (show m < 2 ^ i by omega)]
    omega
  rw [List.length_range] at hle hne
  omega

theorem undef_state_of_lt {n : Nat} (hn : n < 32) : undef_state n = .ok (2 ^ n - 1) := by
  have hpow : 2 ^ n < 2 ^ 32 := Nat.pow_lt_pow_right (by norm_num) hn
  have hpos : 0 < 2 ^ n := Nat.two_pow_pos n
  unfold undef_state usub toUInt UINT_BITS
  rw [if_pos hpow]
  generalize 2 ^ n = x at *
  simp only [Except.ok.injEq]
  omega

theorem usub_of_le {a b : Nat} (ha : a < 2 ^ 32) (hb : b ≤ a) : usub a b = a - b := by
  unfold usub toUInt UINT_BITS
  omega

theorem Uniform_loop_body_eq (M : UniformErrorModel) (m s b u undef k : Nat) (clvp : List ℚ)
    (hm : m ≠ undef) (hb : b ≠ 0) (hu : u ≠ 0) (hlen : k < clvp.length) :
    ∃ st2, M.loop_body m (some s) b u undef k clvp = .ok st2 ∧
      id st2 = (id clvp).set k (if k = s then (1 - M._seq_error_rate) / b else M._seq_error_rate / u) := by
  unfold UniformErrorModel.loop_body
  by_cases h1 : k = s
  · subst h1
    simp [hm, useCtz, fdiv, hb, writeAt, hlen, bind, Except.bind]
  · simp [hm, useCtz, fdiv, hu, writeAt, hlen, h1, bind, Except.bind]

theorem Uniform_compute_eq (n : Nat) (e : ℚ) (m s : Nat) (clvp : List ℚ)
    (hn : n < 32) (h1 : 0 < m) (h2 : m < 2 ^ n - 1) (hs : IsLowestSetBit m s)
    (hbuf : n ≤ clvp.length) :
    ∃ out, UniformErrorModel.compute_state_probs ⟨n, e⟩ m clvp = .ok out ∧
      out.length = clvp.length ∧
      (∀ k, k < n → out[k]? = some
        (if k = s then (1 - e) / (builtin_popcount m : ℚ)
         else e / ((n : ℚ) - (builtin_popcount m : ℚ)))) ∧
      (∀ k, n ≤ k → out[k]? = clvp[k]?) := by
  have hpow : 2 ^ n < 2 ^ 32 := Nat.pow_lt_pow_right (by norm_num) hn
  have hm32 : m < 2 ^ 32 := by omega
  have hb0 := builtin_popcount_pos hm32 h1
  have hbn := builtin_popcount_lt hn h2
  have hu : usub n (builtin_popcount m) = n - builtin_popcount m :=
    usub_of_le (by omega) (by omega)
  obtain ⟨st, hrun, hlen, hin, hout⟩ :=
    forLoop_writes id
      (fun k => if k = s then (1 - e) / (builtin_popcount m : ℚ)
        else e / ((n - builtin_popcount m : Nat) : ℚ))
      (UniformErrorModel.loop_body ⟨n, e⟩ m (some s) (builtin_popcount m)
        (n - builtin_popcount m) (2 ^ n - 1))
      n 0 clvp
      (fun k st1 _ _ hl => Uniform_loop_body_eq ⟨n, e⟩ m s (builtin_popcount m)
        (n - builtin_popcount m) (2 ^ n - 1) k st1 (by omega) (by omega) (by omega) hl)
      (by simpa using hbuf)
  refine ⟨st, ?_, hlen, ?_, fun k hk => hout k (Or.inr (by omega))⟩
  · unfold UniformErrorModel.compute_state_probs
    simp only [toUInt_of_lt hm32, builtin_ctz_of_lowest hm32 hs, undef_state_of_lt hn, hu]
    exact hrun
  · intro k hk
    have h := hin k (Nat.zero_le _) (by omega)
    simp only [id] at h
    rw [h, Nat.cast_sub (Nat.le_of_lt hbn)]

/-- C3: `UniformErrorModel::compute_state_probs` follows the uniform formula.  For every
state count `n` (below the 32 bits of a state code), error rate `e` and mask `m` with
`0 < m < 2^n - 1`, with `s` the index of the lowest set bit of `m` and `b` its number of
set bits, the call on a buffer of at least `n` cells succeeds, cell `s` holds
`(1 - e)/b` and every other cell `k < n` holds `e/(n - b)`.  With `n = 4`, `e = 0.2` and
the single bit of state 2 the output is `[1/15, 1/15, 4/5, 1/15]`, which is
`[0.0667, 0.0667, 0.8, 0.0667]` to four decimals. -/
theorem Uniform_compute_state_probs_formula :
    (∀ (n : Nat) (e : ℚ) (m s k : Nat) (clvp : List ℚ),
      n < 32 → 0 < m → m < 2 ^ n - 1 → IsLowestSetBit m s → k < n → n ≤ clvp.length →
      ∃ out, UniformErrorModel.compute_state_probs ⟨n, e⟩ m clvp = .ok out ∧
        out[k]? = some
          (if k = s then (1 - e) / (builtin_popcount m : ℚ)
           else e / ((n : ℚ) - (builtin_popcount m : ℚ)))) ∧
    (∀ a b c d : ℚ, UniformErrorModel.compute_state_probs ⟨4, 1 / 5⟩ (2 ^ 2) [a, b, c, d]
        = .ok [1 / 15, 1 / 15, 4 / 5, 1 / 15]) ∧
    [1 / 15, 1 / 15, 4 / 5, 1 / 15].map roundTo4 = [667 / 10000, 667 / 10000, 8 / 10, 667 / 10000] := by
  refine ⟨?_, ?_, ?_⟩
  · intro n e m s k clvp hn h1 h2 hs hk hbuf
    obtain ⟨out, hrun, -, hin, -⟩ := Uniform_compute_eq n e m s clvp hn h1 h2 hs hbuf
    exact ⟨out, hrun, hin k hk⟩
  · intro a b c d
    have hc : builtin_ctz 4 = some 2 := by decide
    have hp : builtin_popcount 4 = 1 := by decide
    have hu : undef_state 4 = .ok 15 := by rfl
    have ht : toUInt (2 ^ 2) = 4 := by decide
    have hs : usub 4 1 = 3 := by decide
    simp only [UniformErrorModel.compute_state_probs, ht, hc, hp, hu, hs]
    norm_num [forLoop, UniformErrorModel.loop_body, useCtz, fdiv, writeAt, bind, Except.bind]
  · simp only [List.map, roundTo4]
    norm_num [Int.floor_eq_iff]

theorem Uniform_compute_state_probs_formula_witness :
    IsLowestSetBit 6 1 ∧
    ∃ out, UniformErrorModel.compute_state_probs ⟨4, 1 / 5⟩ 6 [0, 0, 0, 0] = .ok out ∧
      out[3]? = some
        (if 3 = 1 then (1 - 1 / 5) / (builtin_popcount 6 : ℚ)
         else (1 / 5 : ℚ) / (((4 : Nat) : ℚ) - (builtin_popcount 6 : ℚ))) :=
  ⟨by decide,
   Uniform_compute_state_probs_formula.1 4 (1 / 5) 6 1 3 [0, 0, 0, 0]
     (by decide) (by decide) (by decide) (by decide) (by decide) (by decide)⟩

theorem Uniform_loop_body_undef (M : UniformErrorModel) (sid : Option Nat) (b u undef k : Nat)
    (clvp : List ℚ) (hlen : k < clvp.length) :
    ∃ st2, M.loop_body undef sid b u undef k clvp = .ok st2 ∧
      id st2 = (id clvp).set k ((fun _ => (1 : ℚ)) k) := by
  unfold UniformErrorModel.loop_body
  simp [writeAt, hlen]

theorem P17_loop_body_undef (M : GenotypeErrorModel) (sid : Option Nat) (undef k : Nat)
    (st : List ℚ × ℚ) (hlen : k < st.1.length) :
    ∃ st2, P17GenotypeErrorModel.loop_body M undef sid undef k st = .ok st2 ∧
      st2.1 = st.1.set k ((fun _ => (1 : ℚ)) k) := by
  unfold P17GenotypeErrorModel.loop_body
  simp [writeAt, hlen, bind, Except.bind, pure, Except.pure]

theorem PT19_loop_body_undef (M : GenotypeErrorModel) (sid : Option Nat) (undef k : Nat)
    (st : List ℚ × ℚ) (hlen : k < st.1.length) :
    ∃ st2, PT19GenotypeErrorModel.loop_body M undef sid undef k st = .ok st2 ∧
      st2.1 = st.1.set k ((fun _ => (1 : ℚ)) k) := by
  unfold PT19GenotypeErrorModel.loop_body
  simp [writeAt, hlen, bind, Except.bind, pure, Except.pure]

theorem Uniform_compute_full (n : Nat) (e : ℚ) (clvp : List ℚ) (hn : n < 32)
    (hbuf : n ≤ clvp.length) :
    ∃ out, UniformErrorModel.compute_state_probs ⟨n, e⟩ (2 ^ n - 1) clvp = .ok out ∧
      out.length = clvp.length ∧ (∀ k, k < n → out[k]? = some 1) ∧
      (∀ k, n ≤ k → out[k]? = clvp[k]?) := by
  have hpow : 2 ^ n < 2 ^ 32 := Nat.pow_lt_pow_right (by norm_num) hn
  have hm32 : 2 ^ n - 1 < 2 ^ 32 := by omega
  obtain ⟨st, hrun, hlen, hin, hout⟩ :=
    forLoop_writes id (fun _ => (1 : ℚ))
      (UniformErrorModel.loop_body ⟨n, e⟩ (2 ^ n - 1) (builtin_ctz (2 ^ n - 1))
        (builtin_popcount (2 ^ n - 1)) (usub n (builtin_popcount (2 ^ n - 1))) (2 ^ n - 1))
      n 0 clvp
      (fun k st1 _ _ hl => Uniform_loop_body_undef ⟨n, e⟩ _ _ _ (2 ^ n - 1) k st1 hl)
      (by simpa using hbuf)
  refine ⟨st, ?_, hlen, fun k hk => hin k (Nat.zero_le _) (by omega),
    fun k hk => hout k (Or.inr (by omega))⟩
  unfold UniformErrorModel.compute_state_probs
  simp only [toUInt_of_lt hm32, undef_state_of_lt hn]
  exact hrun

theorem P17_compute_full (e d : ℚ) (m : Nat) (clvp : List ℚ) (hm : m = 2 ^ 10 - 1)
    (hbuf : 10 ≤ clvp.length) :
    ∃ out, P17GenotypeErrorModel.compute_state_probs (GenotypeErrorModel.create e d) m clvp
        = .ok out ∧
      out.length = clvp.length ∧ (∀ k, k < 10 → out[k]? = some 1) ∧
      (∀ k, 10 ≤ k → out[k]? = clvp[k]?) := by
  have hm' : 1023 = m := by omega
  have hm32 : m < 2 ^ 32 := by omega
  obtain ⟨st, hrun, hlen, hin, hout⟩ :=
    forLoop_writes Prod.fst (fun _ => (1 : ℚ))
      (P17GenotypeErrorModel.loop_body (GenotypeErrorModel.create e d) m (builtin_ctz m) m)
      10 0 (clvp, 0)
      (fun k st1 _ _ hl => P17_loop_body_undef _ _ m k st1 hl)
      (by simpa using hbuf)
  refine ⟨st.1, ?_, hlen, fun k hk => hin k (Nat.zero_le _) (by omega),
    fun k hk => hout k (Or.inr (by omega))⟩
  unfold P17GenotypeErrorModel.compute_state_probs
  simp only [toUInt_of_lt hm32]
  have hst : (GenotypeErrorModel.create e d)._states = 10 := rfl
  rw [hst, undef_state_ten, hm']
  simp only [hrun]

theorem PT19_compute_full (e d : ℚ) (m : Nat) (clvp : List ℚ) (hm : m = 2 ^ 10 - 1)
    (hbuf : 10 ≤ clvp.length) :
    ∃ out, PT19GenotypeErrorModel.compute_state_probs (GenotypeErrorModel.create e d) m clvp
        = .ok out ∧
      out.length = clvp.length ∧ (∀ k, k < 10 → out[k]? = some 1) ∧
      (∀ k, 10 ≤ k → out[k]? = clvp[k]?) := by
  have hm' : 1023 = m := by omega
  have hm32 : m < 2 ^ 32 := by omega
  obtain ⟨st, hrun, hlen, hin, hout⟩ :=
    forLoop_writes Prod.fst (fun _ => (1 : ℚ))
      (PT19GenotypeErrorModel.loop_body (GenotypeErrorModel.create e d) m (builtin_ctz m) m)
      10 0 (clvp, 0)
      (fun k st1 _ _ hl => PT19_loop_body_undef _ _ m k st1 hl)
      (by simpa using hbuf)
  refine ⟨st.1, ?_, hlen, fun k hk => hin k (Nat.zero_le _) (by omega),
    fun k hk => hout k (Or.inr (by omega))⟩
  unfold PT19GenotypeErrorModel.compute_state_probs
  simp only [toUInt_of_lt hm32]
  have hst : (GenotypeErrorModel.create e d)._states = 10 := rfl
  rw [hst, undef_state_ten, hm']
  simp only [hrun]

/-- C4: full-ambiguity invariant.  For the uniform model with any state count `n` (below
the 32 bits of a state code) and for the P17 and PT19 models (`n = 10`), with any
parameter values, `compute_state_probs` called with the all-ones mask `2^n - 1` on a
buffer of at least `n` cells succeeds and leaves the value 1 in each of the first `n`
cells. -/
theorem full_ambiguity_all_ones :
    (∀ (n : Nat) (e : ℚ) (clvp : List ℚ), n < 32 → n ≤ clvp.length →
      ∃ out, UniformErrorModel.compute_state_probs ⟨n, e⟩ (2 ^ n - 1) clvp = .ok out ∧
        ∀ k, k < n → out[k]? = some 1) ∧
    (∀ (e d : ℚ) (clvp : List ℚ), 10 ≤ clvp.length →
      ∃ out, P17GenotypeErrorModel.compute_state_probs (GenotypeErrorModel.create e d)
          (2 ^ 10 - 1) clvp = .ok out ∧
        ∀ k, k < 10 → out[k]? = some 1) ∧
    (∀ (e d : ℚ) (clvp : List ℚ), 10 ≤ clvp.length →
      ∃ out, PT19GenotypeErrorModel.compute_state_probs (GenotypeErrorModel.create e d)
          (2 ^ 10 - 1) clvp = .ok out ∧
        ∀ k, k < 10 → out[k]? = some 1) := by
  refine ⟨?_, ?_, ?_⟩
  · intro n e clvp hn hbuf
    obtain ⟨out, hrun, -, hin, -⟩ := Uniform_compute_full n e clvp hn hbuf
    exact ⟨out, hrun, hin⟩
  · intro e d clvp hbuf
    obtain ⟨out, hrun, -, hin, -⟩ := P17_compute_full e d (2 ^ 10 - 1) clvp rfl hbuf
    exact ⟨out, hrun, hin⟩
  · intro e d clvp hbuf
    obtain ⟨out, hrun, -, hin, -⟩ := PT19_compute_full e d (2 ^ 10 - 1) clvp rfl hbuf
    exact ⟨out, hrun, hin⟩

theorem full_ambiguity_all_ones_witness :
    (∃ out, UniformErrorModel.compute_state_probs ⟨4, 1 / 5⟩ (2 ^ 4 - 1) [7, 7, 7, 7, 7] = .ok out ∧
        ∀ k, k < 4 → out[k]? = some 1) ∧
    (∃ out, P17GenotypeErrorModel.compute_state_probs (GenotypeErrorModel.create (1 / 10) (1 / 5))
          (2 ^ 10 - 1) (List.replicate 10 7) = .ok out ∧
        ∀ k, k < 10 → out[k]? = some 1) ∧
    (∃ out, PT19GenotypeErrorModel.compute_state_probs (GenotypeErrorModel.create (1 / 10) (1 / 5))
          (2 ^ 10 - 1) (List.replicate 10 7) = .ok out ∧
        ∀ k, k < 10 → out[k]? = some 1) :=
  ⟨full_ambiguity_all_ones.1 4 (1 / 5) [7, 7, 7, 7, 7] (by decide) (by decide),
   full_ambiguity_all_ones.2.1 (1 / 10) (1 / 5) (List.replicate 10 7) (by decide),
   full_ambiguity_all_ones.2.2 (1 / 10) (1 / 5) (List.replicate 10 7) (by decide)⟩

theorem exists_lowest_set_bit {m : Nat} (hm : m ≠ 0) : ∃ s, IsLowestSetBit m s := by
  have h : ∃ i, m.testBit i = true := Nat.ne_zero_implies_bit_true hm
  refine ⟨Nat.find h, Nat.find_spec h, ?_⟩
  intro j hj
  have := Nat.find_min h hj
  simpa using this

/-- C5, as the code has it: on every non-zero mask up to the all-ones mask (state count
below 32 for the uniform model, 10 for P17 and PT19) and a buffer of at least that many
cells, the lowest-set-bit index is defined, the two divisors of the uniform model are
non-zero whenever the mask is not the all-ones mask, the table lookups of the genotype
models stay inside the 10x10 table, and the call completes with a buffer of the same
length. -/
theorem compute_state_probs_completes_on_nonzero_masks :
    (∀ (n : Nat) (e : ℚ) (m : Nat) (clvp : List ℚ),
      n < 32 → 1 ≤ m → m ≤ 2 ^ n - 1 → n ≤ clvp.length →
      (builtin_ctz m).isSome = true ∧
      (m ≠ 2 ^ n - 1 → builtin_popcount m ≠ 0 ∧ usub n (builtin_popcount m) ≠ 0) ∧
      ∃ out, UniformErrorModel.compute_state_probs ⟨n, e⟩ m clvp = .ok out ∧
        out.length = clvp.length) ∧
    (∀ (e d : ℚ) (m : Nat) (clvp : List ℚ),
      1 ≤ m → m ≤ 2 ^ 10 - 1 → 10 ≤ clvp.length →
      (∃ s, builtin_ctz m = some s ∧ ∀ k, k < 10 → (mut_dist_at s k).isSome = true) ∧
      (∃ out, P17GenotypeErrorModel.compute_state_probs (GenotypeErrorModel.create e d) m clvp
          = .ok out ∧ out.length = clvp.length) ∧
      (∃ out, PT19GenotypeErrorModel.compute_state_probs (GenotypeErrorModel.create e d) m clvp
          = .ok out ∧ out.length = clvp.length)) := by
  refine ⟨?_, ?_⟩
  · intro n e m clvp hn h1 h2 hbuf
    have hpow : 2 ^ n < 2 ^ 32 := Nat.pow_lt_pow_right (by norm_num) hn
    obtain ⟨s, hs⟩ := exists_lowest_set_bit (show m ≠ 0 by omega)
    refine ⟨by rw [builtin_ctz_of_lowest (by omega) hs]; rfl, ?_, ?_⟩
    · intro hne
      have hb0 := builtin_popcount_pos (show m < 2 ^ 32 by omega) (show 0 < m by omega)
      have hbn := builtin_popcount_lt hn (show m < 2 ^ n - 1 by omega)
      rw [usub_of_le (show n < 2 ^ 32 by omega) (Nat.le_of_lt hbn)]
      omega
    by_cases hfull : m = 2 ^ n - 1
    · subst hfull
      obtain ⟨out, hrun, hlen, -, -⟩ := Uniform_compute_full n e clvp hn hbuf
      exact ⟨out, hrun, hlen⟩
    · obtain ⟨out, hrun, hlen, -, -⟩ :=
        Uniform_compute_eq n e m s clvp hn (by omega) (by omega) hs hbuf
      exact ⟨out, hrun, hlen⟩
  · intro e d m clvp h1 h2 hbuf
    obtain ⟨s, hs⟩ := exists_lowest_set_bit (show m ≠ 0 by omega)
    have hs10 : s < 10 := lowest_lt_of_lt_pow (n := 10) (by omega) hs
    refine ⟨⟨s, builtin_ctz_of_lowest (by omega) hs, ?_⟩, ?_, ?_⟩
    · intro k hk
      obtain ⟨v, hv⟩ := mut_dist_at_isSome s hs10 k hk
      rw [hv]; rfl
    · by_cases hfull : m = 2 ^ 10 - 1
      · obtain ⟨out, hrun, hlen, -, -⟩ := P17_compute_full e d m clvp hfull hbuf
        exact ⟨out, hrun, hlen⟩
      · obtain ⟨out, hrun, hlen, -, -⟩ := P17_compute_eq e d m s clvp (by omega) hs hbuf
        exact ⟨out, hrun, hlen⟩
    · by_cases hfull : m = 2 ^ 10 - 1
      · obtain ⟨out, hrun, hlen, -, -⟩ := PT19_compute_full e d m clvp hfull hbuf
        exact ⟨out, hrun, hlen⟩
      · obtain ⟨out, hrun, hlen, -, -⟩ := PT19_compute_eq e d m s clvp (by omega) hs hbuf
        exact ⟨out, hrun, hlen⟩

theorem compute_state_probs_completes_on_nonzero_masks_witness :
    ((builtin_ctz 12).isSome = true ∧
      (12 ≠ 2 ^ 4 - 1 → builtin_popcount 12 ≠ 0 ∧ usub 4 (builtin_popcount 12) ≠ 0) ∧
      ∃ out, UniformErrorModel.compute_state_probs ⟨4, 1 / 5⟩ 12 [0, 0, 0, 0] = .ok out ∧
        out.length = [(0 : ℚ), 0, 0, 0].length) ∧
    ((∃ s, builtin_ctz 1022 = some s ∧ ∀ k, k < 10 → (mut_dist_at s k).isSome = true) ∧
      (∃ out, P17GenotypeErrorModel.compute_state_probs (GenotypeErrorModel.create (1 / 10) (1 / 5))
          1022 (List.replicate 10 0) = .ok out ∧ out.length = (List.replicate 10 (0 : ℚ)).length) ∧
      (∃ out, PT19GenotypeErrorModel.compute_state_probs (GenotypeErrorModel.create (1 / 10) (1 / 5))
          1022 (List.replicate 10 0) = .ok out ∧ out.length = (List.replicate 10 (0 : ℚ)).length)) :=
  ⟨compute_state_probs_completes_on_nonzero_masks.1 4 (1 / 5) 12 [0, 0, 0, 0]
     (by decide) (by decide) (by decide) (by decide),
   compute_state_probs_completes_on_nonzero_masks.2 (1 / 10) (1 / 5) 1022 (List.replicate 10 0)
     (by decide) (by decide) (by decide)⟩

/-- C5 fails at mask 0: `__builtin_ctz(0)` has no defined result, and each of the three
routines, run on mask 0 with a buffer of the right size, uses that result in the first
iteration of its loop and stops there. -/
theorem compute_state_probs_mask_zero_fails :
    builtin_ctz 0 = none ∧
    UniformErrorModel.compute_state_probs ⟨4, 1 / 5⟩ 0 [0, 0, 0, 0] = .error .undefinedCtz ∧
    P17GenotypeErrorModel.compute_state_probs (GenotypeErrorModel.create (1 / 10) (1 / 5)) 0
      (List.replicate 10 0) = .error .undefinedCtz ∧
    PT19GenotypeErrorModel.compute_state_probs (GenotypeErrorModel.create (1 / 10) (1 / 5)) 0
      (List.replicate 10 0) = .error .undefinedCtz := by
  refine ⟨by decide, ?_, ?_, ?_⟩ <;> rfl

/-- C6: the table `mut_dist` gives the number of allele substitutions between genotypes:
for all `i, j` in `0..9`, `mut_dist[i][j]` is two minus the size of the multiset
intersection of the allele pairs of genotypes `i` and `j`; it is 0 only when `i = j`;
AA-AC is 1 and AA-GG is 2. -/
theorem mut_dist_counts_allele_substitutions :
    (∀ i, i < 10 → ∀ j, j < 10 → mut_dist_at i j = some (allele_substitutions i j)) ∧
    (∀ i, i < 10 → ∀ j, j < 10 → mut_dist_at i j = some 0 → i = j) ∧
    mut_dist_at 0 4 = some 1 ∧ mut_dist_at 0 2 = some 2 := by
  refine ⟨?_, ?_, ?_, ?_⟩
  · decide
  · decide
  · decide
  · decide

theorem mut_dist_counts_allele_substitutions_witness :
    mut_dist_at 5 8 = some (allele_substitutions 5 8) ∧ (mut_dist_at 7 7 = some 0 → 7 = 7) :=
  ⟨mut_dist_counts_allele_substitutions.1 5 (by decide) 8 (by decide),
   mut_dist_counts_allele_substitutions.2.1 7 (by decide) 7 (by decide)⟩

/-- C7: the distance table is total on `[0,10) x [0,10)`, symmetric, has a zero diagonal
and only the values 0, 1 and 2. -/
theorem mut_dist_symmetric_zero_diag :
    ∀ i, i < 10 → ∀ j, j < 10 →
      (∃ v, mut_dist_at i j = some v ∧ (v = 0 ∨ v = 1 ∨ v = 2)) ∧
      mut_dist_at i j = mut_dist_at j i ∧
      mut_dist_at i i = some 0 := by
  have h : ∀ i, i < 10 → ∀ j, j < 10 →
      (mut_dist_at i j = some 0 ∨ mut_dist_at i j = some 1 ∨ mut_dist_at i j = some 2) ∧
      mut_dist_at i j = mut_dist_at j i ∧ mut_dist_at i i = some 0 := by decide
  intro i hi j hj
  obtain ⟨h1, h2, h3⟩ := h i hi j hj
  refine ⟨?_, h2, h3⟩
  rcases h1 with h1 | h1 | h1
  · exact ⟨0, h1, Or.inl rfl⟩
  · exact ⟨1, h1, Or.inr (Or.inl rfl)⟩
  · exact ⟨2, h1, Or.inr (Or.inr rfl)⟩

theorem mut_dist_symmetric_zero_diag_witness :
    (∃ v, mut_dist_at 4 9 = some v ∧ (v = 0 ∨ v = 1 ∨ v = 2)) ∧
      mut_dist_at 4 9 = mut_dist_at 9 4 ∧
      mut_dist_at 4 4 = some 0 :=
  mut_dist_symmetric_zero_diag 4 (by decide) 9 (by decide)

theorem take_sum_of_entries (a c : ℚ) (s : Nat) (l : List ℚ) :
    ∀ n, n ≤ l.length → (∀ k, k < n → l[k]? = some (if k = s then a else c)) →
      (l.take n).sum = if s < n then a + ((n : ℚ) - 1) * c else (n : ℚ) * c := by
  intro n
  induction n with
  | zero => intro _ _; simp
  | succ n ih =>
    intro hlen hent
    have hprev := ih (by omega) (fun k hk => hent k (by omega))
    have hn := hent n (by omega)
    rw [List.take_succ, List.sum_append, hprev, hn]
    by_cases h1 : s < n
    · have h2 : s < n + 1 := by omega
      have h3 : n ≠ s := by omega
      simp only [h1, h2, h3, if_true, if_false, Option.toList, List.sum_cons, List.sum_nil]
      push_cast
      ring
    · by_cases h2 : n = s
      · subst h2
        have h3 : n < n + 1 := by omega
        simp only [h1, h3, if_true, if_false, Option.toList, List.sum_cons, List.sum_nil]
        push_cast
        ring
      · have h3 : ¬ s < n + 1 := by omega
        simp only [h1, h2, h3, if_false, Option.toList, List.sum_cons, List.sum_nil]
        push_cast
        ring

theorem builtin_popcount_two_pow : ∀ s, s < 32 → builtin_popcount (2 ^ s) = 1 := by
  decide

theorem isLowestSetBit_two_pow (s : Nat) : IsLowestSetBit (2 ^ s) s :=
  ⟨Nat.testBit_two_pow_self, fun _ hj => Nat.testBit_two_pow_of_ne (by omega)⟩

/-- C8: uniform-model mass conservation.  For the uniform model with any state count
`n` (below the 32 bits of a state code), any error rate `e` and the single-bit mask of
any state `s < n` (for which `bitset_count = 1`), the `n` values written by
`compute_state_probs` sum to exactly 1. -/
theorem Uniform_single_bit_mass_conservation (n : Nat) (e : ℚ) (s : Nat) (clvp : List ℚ)
    (hn : n < 32) (hs : s < n) (hbuf : n ≤ clvp.length) :
    builtin_popcount (2 ^ s) = 1 ∧
    ∃ out, UniformErrorModel.compute_state_probs ⟨n, e⟩ (2 ^ s) clvp = .ok out ∧
      (out.take n).sum = 1 := by
  refine ⟨builtin_popcount_two_pow s (by omega), ?_⟩
  by_cases h1 : n = 1
  · subst h1
    have hs0 : s = 0 := by omega
    subst hs0
    obtain ⟨out, hrun, hlen, hin, -⟩ := Uniform_compute_full 1 e clvp hn hbuf
    refine ⟨out, hrun, ?_⟩
    have h := take_sum_of_entries 1 1 0 out 1 (by omega)
      (fun k hk => by rw [hin k hk]; simp)
    rw [h]
    norm_num
  · have hn2 : 2 ≤ n := by omega
    have hp1 : 2 ^ s ≤ 2 ^ (n - 1) := Nat.pow_le_pow_right (by norm_num) (by omega)
    have hp2 : 2 ^ 1 ≤ 2 ^ (n - 1) := Nat.pow_le_pow_right (by norm_num) (by omega)
    have hp3 : 2 ^ n = 2 * 2 ^ (n - 1) := by
      rw [← Nat.pow_succ']
      congr 1
      omega
    have hpos : 0 < 2 ^ s := Nat.two_pow_pos s
    obtain ⟨out, hrun, hlen, hin, -⟩ :=
      Uniform_compute_eq n e (2 ^ s) s clvp hn hpos (by omega) (isLowestSetBit_two_pow s) hbuf
    refine ⟨out, hrun, ?_⟩
    rw [take_sum_of_entries _ _ s out n (by omega) hin, if_pos hs,
      builtin_popcount_two_pow s (by omega)]
    have hne : (n : ℚ) - 1 ≠ 0 := by
      have : (2 : ℚ) ≤ n := by exact_mod_cast hn2
      linarith
    push_cast
    field_simp

theorem Uniform_single_bit_mass_conservation_witness :
    builtin_popcount (2 ^ 2) = 1 ∧
    ∃ out, UniformErrorModel.compute_state_probs ⟨4, 1 / 5⟩ (2 ^ 2) [0, 0, 0, 0] = .ok out ∧
      (out.take 4).sum = 1 :=
  Uniform_single_bit_mass_conservation 4 (1 / 5) 2 [0, 0, 0, 0] (by decide) (by decide) (by decide)

theorem P17_value_scenario_hetero (k : Nat) (hh : HETERO k = true)
    (hd : mut_dist_at 0 k = some 1) : P17_value (1 / 10) (1 / 5) 0 k = 11 / 100 := by
  have hk : ¬ k < 4 := by
    simp only [HETERO, decide_eq_true_eq] at hh
    omega
  have hne : k ≠ 0 := by omega
  unfold P17_value
  simp only [hne, if_false, hd, if_true, HOMO, hk, decide_False, decide_True, Nat.ofNat_pos]
  norm_num

/-- C9, as the code has it: with `e = 0.1`, `d = 0.2` and the single bit of AA (index 0),
P17 writes `1 - 0.1 + 0.5*0.1*0.2 = 0.91` at index 0 and, at every heterozygous state at
distance 1 from AA, `0.5*0.2 + 0.1/6 - 0.1*0.2/3`, which is exactly `0.11` (and `0.11`
when rounded to four decimals). -/
theorem P17_scenario_AA (clvp : List ℚ) (hbuf : 10 ≤ clvp.length) :
    ∃ out, P17GenotypeErrorModel.compute_state_probs (GenotypeErrorModel.create (1 / 10) (2 / 10))
        (2 ^ 0) clvp = .ok out ∧
      out[0]? = some (1 - 1 / 10 + 1 / 2 * (1 / 10) * (2 / 10)) ∧
      (1 - 1 / 10 + 1 / 2 * (1 / 10) * (2 / 10) : ℚ) = 91 / 100 ∧
      (∀ k, k < 10 → HETERO k = true → mut_dist_at 0 k = some 1 →
        out[k]? = some (1 / 2 * (2 / 10) + (1 / 10) / 6 - (1 / 10) * (2 / 10) / 3)) ∧
      (1 / 2 * (2 / 10) + (1 / 10) / 6 - (1 / 10) * (2 / 10) / 3 : ℚ) = 11 / 100 ∧
      roundTo4 (11 / 100) = 11 / 100 := by
  have he : (2 / 10 : ℚ) = 1 / 5 := by norm_num
  obtain ⟨out, hrun, -, hin, -⟩ :=
    P17_compute_eq (1 / 10) (2 / 10) (2 ^ 0) 0 clvp (by decide) (by decide) hbuf
  refine ⟨out, hrun, ?_, by norm_num, ?_, by norm_num, ?_⟩
  · rw [hin 0 (by decide)]
    unfold P17_value
    simp only [if_true, HOMO, decide_True, Nat.ofNat_pos]
  · intro k hk hh hd
    rw [hin k hk, he, P17_value_scenario_hetero k hh hd]
    norm_num
  · unfold roundTo4
    norm_num [Int.floor_eq_iff]

theorem P17_scenario_AA_witness :
    ∃ out, P17GenotypeErrorModel.compute_state_probs (GenotypeErrorModel.create (1 / 10) (2 / 10))
        (2 ^ 0) (List.replicate 10 0) = .ok out ∧
      out[0]? = some (1 - 1 / 10 + 1 / 2 * (1 / 10) * (2 / 10)) ∧
      (1 - 1 / 10 + 1 / 2 * (1 / 10) * (2 / 10) : ℚ) = 91 / 100 ∧
      (∀ k, k < 10 → HETERO k = true → mut_dist_at 0 k = some 1 →
        out[k]? = some (1 / 2 * (2 / 10) + (1 / 10) / 6 - (1 / 10) * (2 / 10) / 3)) ∧
      (1 / 2 * (2 / 10) + (1 / 10) / 6 - (1 / 10) * (2 / 10) / 3 : ℚ) = 11 / 100 ∧
      roundTo4 (11 / 100) = 11 / 100 :=
  P17_scenario_AA (List.replicate 10 0) (by decide)

/-- C9 fails as stated: in the scenario (`e = 0.1`, `d = 0.2`, mask of AA) the value
written at the heterozygous state AC (index 4, at distance 1 from AA) is `0.11`, and no
value written there rounds to `0.1167` at four decimals. -/
theorem P17_scenario_AA_not_01167 :
    (∃ out, P17GenotypeErrorModel.compute_state_probs (GenotypeErrorModel.create (1 / 10) (2 / 10))
        (2 ^ 0) (List.replicate 10 0) = .ok out ∧ out[4]? = some (11 / 100)) ∧
    ¬ ∃ out v, P17GenotypeErrorModel.compute_state_probs (GenotypeErrorModel.create (1 / 10) (2 / 10))
        (2 ^ 0) (List.replicate 10 0) = .ok out ∧ out[4]? = some v ∧
        roundTo4 v = 1167 / 10000 := by
  have he : (2 / 10 : ℚ) = 1 / 5 := by norm_num
  obtain ⟨out, hrun, -, hin, -⟩ :=
    P17_compute_eq (1 / 10) (2 / 10) (2 ^ 0) 0 (List.replicate 10 0) (by decide) (by decide)
      (by decide)
  have h4 : out[4]? = some (11 / 100) := by
    rw [hin 4 (by decide), he, P17_value_scenario_hetero 4 (by decide) (by decide)]
  refine ⟨⟨out, hrun, h4⟩, ?_⟩
  rintro ⟨out', v, hrun', hv, hround⟩
  rw [hrun] at hrun'
  cases hrun'
  rw [h4] at hv
  cases hv
  unfold roundTo4 at hround
  norm_num [Int.floor_eq_iff] at hround

/-- C10, as stated, fails on the empty input: there the setters of both model families
end in a failed `assert`, that is in `abort()`.  No error is raised to the caller, so no
`InvalidArgument`, and no model is left after the call whose rates could be unchanged. -/
theorem set_params_empty_aborts :
    call_end ((UniformErrorModel.mk 4 (1 / 5)).set_params []) = .aborts ∧
    (¬ ∃ M1, call_end ((UniformErrorModel.mk 4 (1 / 5)).set_params [])
        = .raises "InvalidArgument" M1) ∧
    call_end ((GenotypeErrorModel.create (1 / 10) (1 / 5)).set_params []) = .aborts ∧
    (¬ ∃ M1, call_end ((GenotypeErrorModel.create (1 / 10) (1 / 5)).set_params [])
        = .raises "InvalidArgument" M1) := by
  simp [call_end, UniformErrorModel.set_params, GenotypeErrorModel.set_params]

/-- C10, as the code has it: the bulk setter `params(values)` fails exactly when the input
is shorter than the minimum count of 1, that is, for `UniformErrorModel` and for
`GenotypeErrorModel` it fails if and only if `values` is empty.  The failure is a failed
`assert`, which ends the program through `abort()`: on no input is an error raised to the
caller, and on every non-empty input the call returns. -/
theorem set_params_aborts_iff_empty :
    (∀ (M : UniformErrorModel) (pv : List ℚ),
      ((M.set_params pv).1 = .error .assertionFailed ↔ pv.length < 1) ∧
      ((M.set_params pv).1 ≠ .ok () ↔ pv = []) ∧
      (call_end (M.set_params pv) = .aborts ↔ pv = []) ∧
      ((∃ M1, call_end (M.set_params pv) = .returns M1) ↔ pv ≠ []) ∧
      (¬ ∃ what M1, call_end (M.set_params pv) = .raises what M1)) ∧
    (∀ (M : GenotypeErrorModel) (pv : List ℚ),
      ((M.set_params pv).1 = .error .assertionFailed ↔ pv.length < 1) ∧
      ((M.set_params pv).1 ≠ .ok () ↔ pv = []) ∧
      (call_end (M.set_params pv) = .aborts ↔ pv = []) ∧
      ((∃ M1, call_end (M.set_params pv) = .returns M1) ↔ pv ≠ []) ∧
      (¬ ∃ what M1, call_end (M.set_params pv) = .raises what M1)) := by
  refine ⟨?_, ?_⟩
  · intro M pv
    cases pv with
    | nil => simp [call_end, UniformErrorModel.set_params]
    | cons p0 rest => simp [call_end, UniformErrorModel.set_params]
  · intro M pv
    cases pv with
    | nil => simp [call_end, GenotypeErrorModel.set_params]
    | cons p0 rest =>
      cases rest with
      | nil => simp [call_end, GenotypeErrorModel.set_params]
      | cons p1 rest2 => simp [call_end, GenotypeErrorModel.set_params]

/-- C11, as the code has it: `UniformErrorModel::params(values)` requires at least one
value: it succeeds exactly for the inputs of length 1 or more, stores `values[0]` as the
sequencing-error rate and ignores any further values. -/
theorem Uniform_set_params_accepts_one_or_more :
    (∀ (M : UniformErrorModel) (pv : List ℚ),
      (M.set_params pv).1 = .ok () ↔ 1 ≤ pv.length) ∧
    (∀ (M : UniformErrorModel) (p0 : ℚ) (rest : List ℚ),
      M.set_params (p0 :: rest) = (.ok (), { M with _seq_error_rate := p0 })) := by
  refine ⟨?_, ?_⟩
  · intro M pv
    cases pv with
    | nil => simp [UniformErrorModel.set_params]
    | cons p0 rest => simp [UniformErrorModel.set_params]
  · intro M p0 rest
    simp [UniformErrorModel.set_params]

/-- C11 fails as stated: a uniform model accepts an input of length 2 (it stores the
first value and ignores the second), and likewise an input of length 3. -/
theorem Uniform_set_params_length_two_succeeds :
    (UniformErrorModel.mk 4 (1 / 5)).set_params [3 / 10, 9 / 10]
      = (.ok (), UniformErrorModel.mk 4 (3 / 10)) ∧
    (UniformErrorModel.mk 4 (1 / 5)).set_params [3 / 10, 9 / 10, 1 / 2]
      = (.ok (), UniformErrorModel.mk 4 (3 / 10)) := by
  constructor <;> simp [UniformErrorModel.set_params]

/-- C12: partial setter preserves dropout.  For a genotype model holding `(e0, d0)`,
`params([e1])` succeeds, leaves the dropout rate at `d0` and updates only the error rate,
so that `params()` afterwards returns `[e1, d0]`; with an input of length 2 or more,
`params([e1, d1, ...])` makes `params()` return `[e1, d1]`. -/
theorem Genotype_set_params_partial_preserves_dropout :
    (∀ (M : GenotypeErrorModel) (e1 : ℚ),
      (M.set_params [e1]).1 = .ok () ∧
      (M.set_params [e1]).2._dropout_rate = M._dropout_rate ∧
      (M.set_params [e1]).2._seq_error_rate = e1 ∧
      (M.set_params [e1]).2._states = M._states ∧
      (M.set_params [e1]).2.params = [e1, M._dropout_rate]) ∧
    (∀ (M : GenotypeErrorModel) (e1 d1 : ℚ) (rest : List ℚ),
      (M.set_params (e1 :: d1 :: rest)).1 = .ok () ∧
      (M.set_params (e1 :: d1 :: rest)).2._states = M._states ∧
      (M.set_params (e1 :: d1 :: rest)).2.params = [e1, d1]) := by
  refine ⟨?_, ?_⟩
  · intro M e1
    simp [GenotypeErrorModel.set_params, GenotypeErrorModel.params]
  · intro M e1 d1 rest
    simp [GenotypeErrorModel.set_params, GenotypeErrorModel.params]

/-- C13: parameter round-trip.  For the uniform model and for the genotype models (P17
and PT19), in every stored parameter state, `params(params())` succeeds and leaves the
stored parameters unchanged, and therefore `compute_state_probs` gives the same result
as before for every mask and buffer. -/
theorem params_round_trip :
    (∀ (M : UniformErrorModel),
      M.set_params M.params = (.ok (), M) ∧
      ∀ (state : Nat) (clvp : List ℚ),
        (M.set_params M.params).2.compute_state_probs state clvp
          = M.compute_state_probs state clvp) ∧
    (∀ (M : GenotypeErrorModel),
      M.set_params M.params = (.ok (), M) ∧
      ∀ (state : Nat) (clvp : List ℚ),
        P17GenotypeErrorModel.compute_state_probs (M.set_params M.params).2 state clvp
          = P17GenotypeErrorModel.compute_state_probs M state clvp ∧
        PT19GenotypeErrorModel.compute_state_probs (M.set_params M.params).2 state clvp
          = PT19GenotypeErrorModel.compute_state_probs M state clvp) := by
  have hU : ∀ (M : UniformErrorModel), M.set_params M.params = (.ok (), M) := by
    intro M
    simp [UniformErrorModel.set_params, UniformErrorModel.params]
  have hG : ∀ (M : GenotypeErrorModel), M.set_params M.params = (.ok (), M) := by
    intro M
    simp [GenotypeErrorModel.set_params, GenotypeErrorModel.params]
  refine ⟨fun M => ⟨hU M, fun state clvp => by rw [hU M]⟩,
    fun M => ⟨hG M, fun state clvp => by rw [hG M]; exact ⟨rfl, rfl⟩⟩⟩

/-- C15: the parameter accessors are length- and order-aligned for every model:
`param_ids()`, `param_names()` and `params()` have length 1 for the uniform model
(SEQ_ERROR) and length 2 for the genotype models (SEQ_ERROR, then ADO_RATE), position by
position about the same parameter; hence for each of the three models, in every
parameter state, the length assertion of the reporting `operator<<` holds and the call
completes, printing the name and then each parameter name with its value. -/
theorem param_accessors_aligned :
    (∀ (M : UniformErrorModel) (user : Nat),
      M.param_ids user = [RAXML_OPT_PARAM_SEQ_ERROR user] ∧
      M.param_names = ["SEQ_ERROR"] ∧
      M.params = [M._seq_error_rate]) ∧
    (∀ (M : GenotypeErrorModel) (user : Nat),
      M.param_ids user = [RAXML_OPT_PARAM_SEQ_ERROR user, RAXML_OPT_PARAM_ADO_RATE user] ∧
      M.param_names = ["SEQ_ERROR", "ADO_RATE"] ∧
      M.params = [M._seq_error_rate, M._dropout_rate]) ∧
    (∀ (m : ErrorModel) (user : Nat),
      (m.param_ids user).length = m.param_names.length ∧
      m.param_names.length = m.params.length) ∧
    (∀ (m : ErrorModel) (stream : List LogItem) (name : String),
      (report stream name m).1 = .ok () ∧
      (report stream name m).2 = stream ++ [.text name] ++
        (List.zip m.param_names m.params).flatMap
          (fun nv => [.text ",  ", .text nv.1, .text ": ", .number nv.2])) := by
  refine ⟨fun M user => ⟨rfl, rfl, rfl⟩, fun M user => ⟨rfl, rfl, rfl⟩, ?_, ?_⟩
  · intro m user
    cases m <;> exact ⟨rfl, rfl⟩
  · intro m stream name
    cases m <;>
      simp [report, ErrorModel.param_names, ErrorModel.params, UniformErrorModel.param_names,
        UniformErrorModel.params, GenotypeErrorModel.param_names, GenotypeErrorModel.params,
        forLoop, report_loop_body]

theorem two_pow_lt_full {s : Nat} (hs : s < 10) : 2 ^ s < 2 ^ 10 - 1 := by
  have h : 2 ^ s ≤ 2 ^ 9 := Nat.pow_le_pow_right (by norm_num) (by omega)
  have h9 : (2 : Nat) ^ 9 = 512 := by norm_num
  have h10 : (2 : Nat) ^ 10 = 1024 := by norm_num
  omega

theorem P17_single_bit (e d : ℚ) (s : Nat) (clvp : List ℚ) (hs : s < 10)
    (hbuf : 10 ≤ clvp.length) :
    ∃ out, P17GenotypeErrorModel.compute_state_probs (GenotypeErrorModel.create e d) (2 ^ s) clvp
        = .ok out ∧
      out.length = clvp.length ∧ (∀ k, k < 10 → out[k]? = some (P17_value e d s k)) :=
  let ⟨out, h1, h2, h3, _⟩ :=
    P17_compute_eq e d (2 ^ s) s clvp (two_pow_lt_full hs) (isLowestSetBit_two_pow s) hbuf
  ⟨out, h1, h2, h3⟩

theorem PT19_single_bit (e d : ℚ) (s : Nat) (clvp : List ℚ) (hs : s < 10)
    (hbuf : 10 ≤ clvp.length) :
    ∃ out, PT19GenotypeErrorModel.compute_state_probs (GenotypeErrorModel.create e d) (2 ^ s) clvp
        = .ok out ∧
      out.length = clvp.length ∧ (∀ k, k < 10 → out[k]? = some (PT19_value e d s k)) :=
  let ⟨out, h1, h2, h3, _⟩ :=
    PT19_compute_eq e d (2 ^ s) s clvp (two_pow_lt_full hs) (isLowestSetBit_two_pow s) hbuf
  ⟨out, h1, h2, h3⟩

theorem mut_dist_homo_homo : ∀ s, s < 10 → ∀ k, k < 10 → HOMO s = true → HOMO k = true →
    mut_dist_at s k ≠ some 1 := by
  decide

theorem HETERO_eq_not_HOMO (s : Nat) : HETERO s = !HOMO s := by
  unfold HETERO HOMO
  by_cases h : s < 4
  · have h' : ¬ s > 3 := by omega
    simp [h, h']
  · have h' : s > 3 := by omega
    simp [h, h']

theorem P17_value_no_error (d : ℚ) (s k : Nat) (hs : s < 10) (hk : k < 10) :
    P17_value 0 d s k =
      if HETERO s = true then (if k = s then 1 - d else 0)
      else if k = s then 1
      else if HETERO k = true ∧ mut_dist_at s k = some 1 then d / 2 else 0 := by
  have htab := mut_dist_homo_homo s hs k hk
  rw [HETERO_eq_not_HOMO s, HETERO_eq_not_HOMO k]
  unfold P17_value
  by_cases h1 : k = s <;> by_cases h2 : HOMO s = true <;> by_cases h3 : HOMO k = true <;>
    by_cases h4 : mut_dist_at s k = some 1 <;> simp [h1, h2, h3, h4]
  all_goals first | exact absurd h4 (htab h2 h3) | ring

theorem PT19_value_no_error (d : ℚ) (s k : Nat) (hs : s < 10) (hk : k < 10) :
    PT19_value 0 d s k =
      if HETERO s = true then (if k = s then 1 - d else 0)
      else if k = s then 1
      else if HETERO k = true ∧ mut_dist_at s k = some 1 then d / 2 else 0 := by
  have htab := mut_dist_homo_homo s hs k hk
  rw [HETERO_eq_not_HOMO s, HETERO_eq_not_HOMO k]
  unfold PT19_value
  by_cases h1 : k = s <;> by_cases h2 : HOMO s = true <;> by_cases h3 : HOMO k = true <;>
    by_cases h4 : mut_dist_at s k = some 1 <;> simp [h1, h2, h3, h4]
  all_goals first | exact absurd h4 (htab h2 h3) | ring

/-- C17: dropout turns only a heterozygous truth into a homozygous-looking observation.
In P17 and in PT19, with sequencing-error rate `e = 0` and any dropout rate `d`: for
the single-bit mask of a heterozygous state `s` the output is `1 - d` at `k = s` and `0`
at every other `k`; for the single-bit mask of a homozygous state `s` the output is `1`
at `k = s`, `d/2` at each heterozygous `k` at distance 1 from `s`, and `0` at every
other `k`. -/
theorem dropout_only_hetero_to_homo (d : ℚ) (s k : Nat) (clvp : List ℚ)
    (hs : s < 10) (hk : k < 10) (hbuf : 10 ≤ clvp.length) :
    ∃ o17 o19,
      P17GenotypeErrorModel.compute_state_probs (GenotypeErrorModel.create 0 d) (2 ^ s) clvp
        = .ok o17 ∧
      PT19GenotypeErrorModel.compute_state_probs (GenotypeErrorModel.create 0 d) (2 ^ s) clvp
        = .ok o19 ∧
      (HETERO s = true →
        o17[k]? = some (if k = s then 1 - d else 0) ∧
        o19[k]? = some (if k = s then 1 - d else 0)) ∧
      (HOMO s = true →
        o17[k]? = some (if k = s then 1
          else if HETERO k = true ∧ mut_dist_at s k = some 1 then d / 2 else 0) ∧
        o19[k]? = some (if k = s then 1
          else if HETERO k = true ∧ mut_dist_at s k = some 1 then d / 2 else 0)) := by
  obtain ⟨o17, h17, -, v17⟩ := P17_single_bit 0 d s clvp hs hbuf
  obtain ⟨o19, h19, -, v19⟩ := PT19_single_bit 0 d s clvp hs hbuf
  refine ⟨o17, o19, h17, h19, ?_, ?_⟩
  · intro hh
    rw [v17 k hk, v19 k hk, P17_value_no_error d s k hs hk, PT19_value_no_error d s k hs hk]
    simp [hh]
  · intro hh
    have hh' : ¬ HETERO s = true := by
      rw [HETERO_eq_not_HOMO, hh]; simp
    rw [v17 k hk, v19 k hk, P17_value_no_error d s k hs hk, PT19_value_no_error d s k hs hk]
    simp [hh']

theorem dropout_only_hetero_to_homo_witness :
    ∃ o17 o19,
      P17GenotypeErrorModel.compute_state_probs (GenotypeErrorModel.create 0 (1 / 5)) (2 ^ 0)
        (List.replicate 10 0) = .ok o17 ∧
      PT19GenotypeErrorModel.compute_state_probs (GenotypeErrorModel.create 0 (1 / 5)) (2 ^ 0)
        (List.replicate 10 0) = .ok o19 ∧
      (HETERO 0 = true →
        o17[4]? = some (if 4 = 0 then 1 - (1 / 5 : ℚ) else 0) ∧
        o19[4]? = some (if 4 = 0 then 1 - (1 / 5 : ℚ) else 0)) ∧
      (HOMO 0 = true →
        o17[4]? = some (if 4 = 0 then 1
          else if HETERO 4 = true ∧ mut_dist_at 0 4 = some 1 then (1 / 5 : ℚ) / 2 else 0) ∧
        o19[4]? = some (if 4 = 0 then 1
          else if HETERO 4 = true ∧ mut_dist_at 0 4 = some 1 then (1 / 5 : ℚ) / 2 else 0)) :=
  dropout_only_hetero_to_homo (1 / 5) 0 4 (List.replicate 10 0) (by decide) (by decide)
    (by decide)

theorem take_eq_map_range (l : List ℚ) (n : Nat) (g : Nat → ℚ) (hlen : n ≤ l.length)
    (h : ∀ k, k < n → l[k]? = some (g k)) : l.take n = (List.range n).map g := by
  apply List.ext_getElem?
  intro i
  by_cases hi : i < n
  · rw [List.getElem?_take_of_lt hi, h i hi, List.getElem?_map, List.getElem?_range hi]
    rfl
  · have h1 : (List.take n l).length ≤ i := by
      rw [List.length_take]; omega
    have h2 : ((List.range n).map g).length ≤ i := by
      rw [List.length_map, List.length_range]; omega
    rw [List.getElem?_eq_none h1, List.getElem?_eq_none h2]

theorem range_ten : List.range 10 = [0, 1, 2, 3, 4, 5, 6, 7, 8, 9] := by decide

theorem P17_value_homo_sum (e d : ℚ) (s : Nat) (hs : s < 4) :
    ((List.range 10).map (P17_value e d s)).sum = 1 - e / 2 + 3 * d / 2 + e * d / 2 := by
  rw [range_ten]
  interval_cases s <;> simp +decide [P17_value, HOMO] <;> ring

/-- C18: the P17 output is left unnormalized.  For every `e`, `d` and the single-bit
mask of a homozygous state, the ten values written by
`P17GenotypeErrorModel::compute_state_probs` sum to `1 - e/2 + 3*d/2 + e*d/2`; with
`e = 0.1`, `d = 0.2` (inside the valid ranges) and the mask of AA the sum is `1.26`, not
1. -/
theorem P17_output_unnormalized :
    (∀ (e d : ℚ) (s : Nat) (clvp : List ℚ), s < 4 → 10 ≤ clvp.length →
      ∃ out, P17GenotypeErrorModel.compute_state_probs (GenotypeErrorModel.create e d) (2 ^ s) clvp
          = .ok out ∧
        (out.take 10).sum = 1 - e / 2 + 3 * d / 2 + e * d / 2) ∧
    (∀ (clvp : List ℚ), 10 ≤ clvp.length →
      ∃ out, P17GenotypeErrorModel.compute_state_probs
          (GenotypeErrorModel.create (1 / 10) (2 / 10)) (2 ^ 0) clvp = .ok out ∧
        (out.take 10).sum = 126 / 100 ∧ (out.take 10).sum ≠ 1) ∧
    ((0 : ℚ) < 1 / 10 ∧ (1 / 10 : ℚ) ≤ 1 / 2 ∧ (0 : ℚ) < 2 / 10 ∧ (2 / 10 : ℚ) ≤ 7 / 10) := by
  have hgen : ∀ (e d : ℚ) (s : Nat) (clvp : List ℚ), s < 4 → 10 ≤ clvp.length →
      ∃ out, P17GenotypeErrorModel.compute_state_probs (GenotypeErrorModel.create e d) (2 ^ s) clvp
          = .ok out ∧
        (out.take 10).sum = 1 - e / 2 + 3 * d / 2 + e * d / 2 := by
    intro e d s clvp hs hbuf
    obtain ⟨out, hrun, hlen, hin⟩ := P17_single_bit e d s clvp (by omega) hbuf
    refine ⟨out, hrun, ?_⟩
    rw [take_eq_map_range out 10 (P17_value e d s) (by omega) hin, P17_value_homo_sum e d s hs]
  refine ⟨hgen, ?_, by norm_num⟩
  intro clvp hbuf
  obtain ⟨out, hrun, hsum⟩ := hgen (1 / 10) (2 / 10) 0 clvp (by decide) hbuf
  refine ⟨out, hrun, ?_, ?_⟩
  · rw [hsum]; norm_num
  · rw [hsum]; norm_num

theorem P17_output_unnormalized_witness :
    ∃ out, P17GenotypeErrorModel.compute_state_probs
        (GenotypeErrorModel.create (1 / 4) (1 / 2)) (2 ^ 3) (List.replicate 10 0) = .ok out ∧
      (out.take 10).sum = 1 - (1 / 4 : ℚ) / 2 + 3 * (1 / 2) / 2 + (1 / 4) * (1 / 2) / 2 :=
  P17_output_unnormalized.1 (1 / 4) (1 / 2) 3 (List.replicate 10 0) (by decide) (by decide)

theorem P17_value_column_sum (e d : ℚ) (k : Nat) (hk : k < 10) :
    (Finset.range 10).sum (fun s => P17_value e d s k) = 1 := by
  interval_cases k <;> simp +decide [Finset.sum_range_succ, P17_value, HOMO] <;> ring

theorem PT19_value_column_sum (e d : ℚ) (k : Nat) (hk : k < 10) :
    (Finset.range 10).sum (fun s => PT19_value e d s k) = 1 := by
  interval_cases k <;> simp +decide [Finset.sum_range_succ, PT19_value, HOMO] <;> ring

/-- C19: both genotype models define a proper observation distribution per true state.
For P17 and for PT19, for every `e`, `d` and every true state `k` in `0..9`, the values
written at index `k` by `compute_state_probs` on the ten single-bit masks `2^s`
(`s = 0..9`) sum to exactly 1. -/
theorem genotype_columns_sum_to_one (e d : ℚ) (k : Nat) (clvp : List ℚ) (hk : k < 10)
    (hbuf : 10 ≤ clvp.length) :
    (∃ f : Nat → ℚ,
      (∀ s, s < 10 → ∃ out,
        P17GenotypeErrorModel.compute_state_probs (GenotypeErrorModel.create e d) (2 ^ s) clvp
          = .ok out ∧ out[k]? = some (f s)) ∧
      (Finset.range 10).sum f = 1) ∧
    (∃ f : Nat → ℚ,
      (∀ s, s < 10 → ∃ out,
        PT19GenotypeErrorModel.compute_state_probs (GenotypeErrorModel.create e d) (2 ^ s) clvp
          = .ok out ∧ out[k]? = some (f s)) ∧
      (Finset.range 10).sum f = 1) := by
  refine ⟨⟨fun s => P17_value e d s k, ?_, P17_value_column_sum e d k hk⟩,
    ⟨fun s => PT19_value e d s k, ?_, PT19_value_column_sum e d k hk⟩⟩
  · intro s hs
    obtain ⟨out, hrun, -, hin⟩ := P17_single_bit e d s clvp hs hbuf
    exact ⟨out, hrun, hin k hk⟩
  · intro s hs
    obtain ⟨out, hrun, -, hin⟩ := PT19_single_bit e d s clvp hs hbuf
    exact ⟨out, hrun, hin k hk⟩

theorem genotype_columns_sum_to_one_witness :
    (∃ f : Nat → ℚ,
      (∀ s, s < 10 → ∃ out,
        P17GenotypeErrorModel.compute_state_probs (GenotypeErrorModel.create (1 / 10) (1 / 5))
          (2 ^ s) (List.replicate 10 0) = .ok out ∧ out[4]? = some (f s)) ∧
      (Finset.range 10).sum f = 1) ∧
    (∃ f : Nat → ℚ,
      (∀ s, s < 10 → ∃ out,
        PT19GenotypeErrorModel.compute_state_probs (GenotypeErrorModel.create (1 / 10) (1 / 5))
          (2 ^ s) (List.replicate 10 0) = .ok out ∧ out[4]? = some (f s)) ∧
      (Finset.range 10).sum f = 1) :=
  genotype_columns_sum_to_one (1 / 10) (1 / 5) 4 (List.replicate 10 0) (by decide) (by decide)

theorem P17_value_bounds (e d : ℚ) (s k : Nat) (he0 : 0 ≤ e) (he1 : e ≤ 1 / 2)
    (hd0 : 0 ≤ d) (hd1 : d ≤ 7 / 10) :
    0 ≤ P17_value e d s k ∧ P17_value e d s k ≤ 1 := by
  have p1 : 0 ≤ e * d := mul_nonneg he0 hd0
  have p2 : 0 ≤ (1 / 2 - e) * (7 / 10 - d) := mul_nonneg (by linarith) (by linarith)
  have p3 : 0 ≤ e * (7 / 10 - d) := mul_nonneg he0 (by linarith)
  have p4 : 0 ≤ (1 / 2 - e) * d := mul_nonneg (by linarith) hd0
  unfold P17_value
  split_ifs <;> constructor <;> nlinarith

theorem PT19_value_bounds (e d : ℚ) (s k : Nat) (he0 : 0 ≤ e) (he1 : e ≤ 1 / 2)
    (hd0 : 0 ≤ d) (hd1 : d ≤ 7 / 10) :
    0 ≤ PT19_value e d s k ∧ PT19_value e d s k ≤ 1 := by
  have p1 : 0 ≤ e * d := mul_nonneg he0 hd0
  have p2 : 0 ≤ (1 / 2 - e) * (7 / 10 - d) := mul_nonneg (by linarith) (by linarith)
  have p3 : 0 ≤ e * (7 / 10 - d) := mul_nonneg he0 (by linarith)
  have p4 : 0 ≤ (1 / 2 - e) * d := mul_nonneg (by linarith) hd0
  unfold PT19_value
  split_ifs <;> constructor <;> nlinarith

/-- C20: inside the parameter bounds of `common.h` the genotype models emit no degenerate
probability.  For every `e` with `0 ≤ e ≤ 1/2` (`RAXML_SEQ_ERROR_MAX`), every `d` with
`0 ≤ d ≤ 7/10` (`RAXML_ADO_RATE_MAX`), every mask `m` with `1 ≤ m ≤ 2^10 - 1` and every
`k` in `0..9`, the value written at index `k` by P17 and by PT19 `compute_state_probs`
lies in the closed interval `[0, 1]`. -/
theorem genotype_values_in_unit_interval (e d : ℚ) (m k : Nat) (clvp : List ℚ)
    (he0 : 0 ≤ e) (he1 : e ≤ 1 / 2) (hd0 : 0 ≤ d) (hd1 : d ≤ 7 / 10)
    (hm1 : 1 ≤ m) (hm2 : m ≤ 2 ^ 10 - 1) (hk : k < 10) (hbuf : 10 ≤ clvp.length) :
    (∃ out v, P17GenotypeErrorModel.compute_state_probs (GenotypeErrorModel.create e d) m clvp
        = .ok out ∧ out[k]? = some v ∧ 0 ≤ v ∧ v ≤ 1) ∧
    (∃ out v, PT19GenotypeErrorModel.compute_state_probs (GenotypeErrorModel.create e d) m clvp
        = .ok out ∧ out[k]? = some v ∧ 0 ≤ v ∧ v ≤ 1) := by
  by_cases hfull : m = 2 ^ 10 - 1
  · obtain ⟨o17, h17, -, v17, -⟩ := P17_compute_full e d m clvp hfull hbuf
    obtain ⟨o19, h19, -, v19, -⟩ := PT19_compute_full e d m clvp hfull hbuf
    exact ⟨⟨o17, 1, h17, v17 k hk, by norm_num, le_refl _⟩,
      ⟨o19, 1, h19, v19 k hk, by norm_num, le_refl _⟩⟩
  · obtain ⟨s, hs⟩ := exists_lowest_set_bit (show m ≠ 0 by omega)
    obtain ⟨o17, h17, -, v17, -⟩ := P17_compute_eq e d m s clvp (by omega) hs hbuf
    obtain ⟨o19, h19, -, v19, -⟩ := PT19_compute_eq e d m s clvp (by omega) hs hbuf
    have b17 := P17_value_bounds e d s k he0 he1 hd0 hd1
    have b19 := PT19_value_bounds e d s k he0 he1 hd0 hd1
    exact ⟨⟨o17, _, h17, v17 k hk, b17.1, b17.2⟩, ⟨o19, _, h19, v19 k hk, b19.1, b19.2⟩⟩

theorem genotype_values_in_unit_interval_witness :
    (∃ out v, P17GenotypeErrorModel.compute_state_probs
        (GenotypeErrorModel.create (1 / 2) (7 / 10)) 1 (List.replicate 10 0)
        = .ok out ∧ out[4]? = some v ∧ 0 ≤ v ∧ v ≤ 1) ∧
    (∃ out v, PT19GenotypeErrorModel.compute_state_probs
        (GenotypeErrorModel.create (1 / 2) (7 / 10)) 1 (List.replicate 10 0)
        = .ok out ∧ out[4]? = some v ∧ 0 ≤ v ∧ v ≤ 1) :=
  genotype_values_in_unit_interval (1 / 2) (7 / 10) 1 4 (List.replicate 10 0)
    (by norm_num) (by norm_num) (by norm_num) (by norm_num) (by decide) (by decide)
    (by decide) (by decide)

theorem forLoop_agree {σ : Type} (proj : σ → List ℚ) (val : Nat → Except Fault ℚ)
    (body : Nat → σ → Except Fault σ)
    (hbody : ∀ k st, k < (proj st).length →
      (∀ f, val k = .error f → body k st = .error f) ∧
      (∀ v, val k = .ok v → ∃ st2, body k st = .ok st2 ∧ proj st2 = (proj st).set k v)) :
    ∀ (r k0 : Nat) (st1 st2 : σ),
      k0 + r ≤ (proj st1).length → k0 + r ≤ (proj st2).length →
      (∃ f, forLoop body r k0 st1 = .error f ∧ forLoop body r k0 st2 = .error f) ∨
      (∃ a b, forLoop body r k0 st1 = .ok a ∧ forLoop body r k0 st2 = .ok b ∧
        (proj a).length = (proj st1).length ∧
        (∀ k, k0 ≤ k → k < k0 + r → (proj a)[k]? = (proj b)[k]?) ∧
        (∀ k, k < k0 ∨ k0 + r ≤ k → (proj a)[k]? = (proj st1)[k]?) ∧
        (∀ k, k < k0 ∨ k0 + r ≤ k → (proj b)[k]? = (proj st2)[k]?)) := by
  intro r
  induction r with
  | zero =>
    intro k0 st1 st2 _ _
    exact Or.inr ⟨st1, st2, rfl, rfl, rfl, fun k h1 h2 => by omega, fun _ _ => rfl,
      fun _ _ => rfl⟩
  | succ r ih =>
    intro k0 st1 st2 h1 h2
    obtain ⟨he1, ho1⟩ := hbody k0 st1 (by omega)
    obtain ⟨he2, ho2⟩ := hbody k0 st2 (by omega)
    cases hv : val k0 with
    | error f =>
      refine Or.inl ⟨f, ?_, ?_⟩
      · simp only [forLoop, he1 f hv]
      · simp only [forLoop, he2 f hv]
    | ok v =>
      obtain ⟨s1, hb1, hp1⟩ := ho1 v hv
      obtain ⟨s2, hb2, hp2⟩ := ho2 v hv
      have hl1 : (proj s1).length = (proj st1).length := by rw [hp1, List.length_set]
      have hl2 : (proj s2).length = (proj st2).length := by rw [hp2, List.length_set]
      rcases ih (k0 + 1) s1 s2 (by omega) (by omega) with ⟨f, hf1, hf2⟩ | ⟨a, b, ha, hb, hla, hin, houta, houtb⟩
      · refine Or.inl ⟨f, ?_, ?_⟩
        · simp only [forLoop, hb1, hf1]
        · simp only [forLoop, hb2, hf2]
      · refine Or.inr ⟨a, b, ?_, ?_, by omega, ?_, ?_, ?_⟩
        · simp only [forLoop, hb1, ha]
        · simp only [forLoop, hb2, hb]
        · intro k hk1 hk2
          by_cases hk : k = k0
          · subst hk
            rw [houta k (Or.inl (by omega)), houtb k (Or.inl (by omega)), hp1, hp2,
              List.getElem?_set, List.getElem?_set]
            simp only [if_true]
            rw [if_pos (by omega), if_pos (by omega)]
          · exact hin k (by omega) (by omega)
        · intro k hk
          rw [houta k (by omega), hp1, List.getElem?_set_ne (by omega)]
        · intro k hk
          rw [houtb k (by omega), hp2, List.getElem?_set_ne (by omega)]

theorem Uniform_loop_body_entry (M : UniformErrorModel) (state : Nat) (state_id : Option Nat)
    (bitset bitunset undef k : Nat) (clvp : List ℚ) (hk : k < clvp.length) :
    (∀ f, M.entry state state_id bitset bitunset undef k = .error f →
      M.loop_body state state_id bitset bitunset undef k clvp = .error f) ∧
    (∀ v, M.entry state state_id bitset bitunset undef k = .ok v →
      ∃ st2, M.loop_body state state_id bitset bitunset undef k clvp = .ok st2 ∧
        id st2 = (id clvp).set k v) := by
  unfold UniformErrorModel.entry UniformErrorModel.loop_body
  by_cases h0 : state = undef
  · simp [h0, writeAt, hk]
  · cases state_id with
    | none => simp [h0, useCtz, bind, Except.bind]
    | some sid =>
      by_cases h1 : k = sid <;> by_cases h2 : bitset = 0 <;> by_cases h3 : bitunset = 0 <;>
        simp [h0, useCtz, bind, Except.bind, fdiv, h1, h2, h3, writeAt, hk] <;>
        (subst h1; simp [hk])

theorem P17_loop_body_entry (M : GenotypeErrorModel) (state : Nat) (state_id : Option Nat)
    (undef k : Nat) (st : List ℚ × ℚ) (hk : k < st.1.length) :
    (∀ f, P17GenotypeErrorModel.entry M state state_id undef k = .error f →
      P17GenotypeErrorModel.loop_body M state state_id undef k st = .error f) ∧
    (∀ v, P17GenotypeErrorModel.entry M state state_id undef k = .ok v →
      ∃ st2, P17GenotypeErrorModel.loop_body M state state_id undef k st = .ok st2 ∧
        st2.1 = st.1.set k v) := by
  unfold P17GenotypeErrorModel.entry P17GenotypeErrorModel.loop_body
  by_cases h0 : state = undef
  · simp [h0, writeAt, hk, bind, Except.bind, pure, Except.pure]
  · cases state_id with
    | none => simp [h0, useCtz, bind, Except.bind]
    | some sid =>
      cases hl : lookup_mut_dist sid k with
      | error g =>
        by_cases h1 : k = sid <;> by_cases h2 : HOMO sid = true <;>
          simp [h0, useCtz, bind, Except.bind, pure, Except.pure, hl, h1, h2, writeAt, hk] <;>
          (subst h1; simp [hk])
      | ok dist =>
        by_cases h1 : k = sid <;> by_cases h2 : HOMO sid = true <;>
          by_cases h3 : HOMO k = true <;> by_cases h4 : dist = 1 <;>
          simp [h0, useCtz, bind, Except.bind, pure, Except.pure, hl, h1, h2, h3, h4, writeAt, hk] <;>
          (subst h1; simp [hk])

theorem PT19_loop_body_entry (M : GenotypeErrorModel) (state : Nat) (state_id : Option Nat)
    (undef k : Nat) (st : List ℚ × ℚ) (hk : k < st.1.length) :
    (∀ f, PT19GenotypeErrorModel.entry M state state_id undef k = .error f →
      PT19GenotypeErrorModel.loop_body M state state_id undef k st = .error f) ∧
    (∀ v, PT19GenotypeErrorModel.entry M state state_id undef k = .ok v →
      ∃ st2, PT19GenotypeErrorModel.loop_body M state state_id undef k st = .ok st2 ∧
        st2.1 = st.1.set k v) := by
  unfold PT19GenotypeErrorModel.entry PT19GenotypeErrorModel.loop_body
  by_cases h0 : state = undef
  · simp [h0, writeAt, hk, bind, Except.bind, pure, Except.pure]
  · cases state_id with
    | none => simp [h0, useCtz, bind, Except.bind]
    | some sid =>
      cases hl : lookup_mut_dist sid k with
      | error g =>
        by_cases h1 : k = sid <;> by_cases h2 : HOMO sid = true <;>
          simp [h0, useCtz, bind, Except.bind, pure, Except.pure, hl, h1, h2, writeAt, hk] <;>
          (subst h1; simp [hk])
      | ok dist =>
        by_cases h1 : k = sid <;> by_cases h2 : HOMO sid = true <;>
          by_cases h3 : HOMO k = true <;> by_cases h4 : dist = 1 <;>
          simp [h0, useCtz, bind, Except.bind, pure, Except.pure, hl, h1, h2, h3, h4, writeAt, hk] <;>
          (subst h1; simp [hk])

theorem Uniform_compute_agree (M : UniformErrorModel) (state : Nat) (clvp1 clvp2 : List ℚ)
    (h1 : M._states ≤ clvp1.length) (h2 : M._states ≤ clvp2.length) :
    (∃ f, M.compute_state_probs state clvp1 = .error f ∧
      M.compute_state_probs state clvp2 = .error f) ∨
    (∃ a b, M.compute_state_probs state clvp1 = .ok a ∧
      M.compute_state_probs state clvp2 = .ok b ∧
      a.length = clvp1.length ∧
      (∀ k, k < M._states → a[k]? = b[k]?) ∧
      (∀ k, M._states ≤ k → a[k]? = clvp1[k]?)) := by
  unfold UniformErrorModel.compute_state_probs
  cases hu : undef_state M._states with
  | error f => exact Or.inl ⟨f, rfl, rfl⟩
  | ok undef =>
    simp only []
    rcases forLoop_agree id _ _
        (fun k st hk => Uniform_loop_body_entry M (toUInt state) (builtin_ctz (toUInt state))
          (builtin_popcount (toUInt state)) (usub M._states (builtin_popcount (toUInt state)))
          undef k st hk)
        M._states 0 clvp1 clvp2 (by simpa using h1) (by simpa using h2)
      with ⟨f, hf1, hf2⟩ | ⟨a, b, ha, hb, hla, hin, houta, -⟩
    · exact Or.inl ⟨f, hf1, hf2⟩
    · exact Or.inr ⟨a, b, ha, hb, hla, fun k hk => hin k (Nat.zero_le _) (by omega),
        fun k hk => houta k (Or.inr (by omega))⟩

theorem P17_compute_agree (M : GenotypeErrorModel) (state : Nat) (clvp1 clvp2 : List ℚ)
    (h1 : M._states ≤ clvp1.length) (h2 : M._states ≤ clvp2.length) :
    (∃ f, P17GenotypeErrorModel.compute_state_probs M state clvp1 = .error f ∧
      P17GenotypeErrorModel.compute_state_probs M state clvp2 = .error f) ∨
    (∃ a b, P17GenotypeErrorModel.compute_state_probs M state clvp1 = .ok a ∧
      P17GenotypeErrorModel.compute_state_probs M state clvp2 = .ok b ∧
      a.length = clvp1.length ∧
      (∀ k, k < M._states → a[k]? = b[k]?) ∧
      (∀ k, M._states ≤ k → a[k]? = clvp1[k]?)) := by
  unfold P17GenotypeErrorModel.compute_state_probs
  cases hu : undef_state M._states with
  | error f => exact Or.inl ⟨f, rfl, rfl⟩
  | ok undef =>
    simp only []
    rcases forLoop_agree Prod.fst _ _
        (fun k st hk => P17_loop_body_entry M (toUInt state) (builtin_ctz (toUInt state))
          undef k st hk)
        M._states 0 (clvp1, 0) (clvp2, 0) (by simpa using h1) (by simpa using h2)
      with ⟨f, hf1, hf2⟩ | ⟨a, b, ha, hb, hla, hin, houta, -⟩
    · exact Or.inl ⟨f, by rw [hf1], by rw [hf2]⟩
    · exact Or.inr ⟨a.1, b.1, by rw [ha], by rw [hb], hla,
        fun k hk => hin k (Nat.zero_le _) (by omega), fun k hk => houta k (Or.inr (by omega))⟩

theorem PT19_compute_agree (M : GenotypeErrorModel) (state : Nat) (clvp1 clvp2 : List ℚ)
    (h1 : M._states ≤ clvp1.length) (h2 : M._states ≤ clvp2.length) :
    (∃ f, PT19GenotypeErrorModel.compute_state_probs M state clvp1 = .error f ∧
      PT19GenotypeErrorModel.compute_state_probs M state clvp2 = .error f) ∨
    (∃ a b, PT19GenotypeErrorModel.compute_state_probs M state clvp1 = .ok a ∧
      PT19GenotypeErrorModel.compute_state_probs M state clvp2 = .ok b ∧
      a.length = clvp1.length ∧
      (∀ k, k < M._states → a[k]? = b[k]?) ∧
      (∀ k, M._states ≤ k → a[k]? = clvp1[k]?)) := by
  unfold PT19GenotypeErrorModel.compute_state_probs
  cases hu : undef_state M._states with
  | error f => exact Or.inl ⟨f, rfl, rfl⟩
  | ok undef =>
    simp only []
    rcases forLoop_agree Prod.fst _ _
        (fun k st hk => PT19_loop_body_entry M (toUInt state) (builtin_ctz (toUInt state))
          undef k st hk)
        M._states 0 (clvp1, 0) (clvp2, 0) (by simpa using h1) (by simpa using h2)
      with ⟨f, hf1, hf2⟩ | ⟨a, b, ha, hb, hla, hin, houta, -⟩
    · exact Or.inl ⟨f, by rw [hf1], by rw [hf2]⟩
    · exact Or.inr ⟨a.1, b.1, by rw [ha], by rw [hb], hla,
        fun k hk => hin k (Nat.zero_le _) (by omega), fun k hk => houta k (Or.inr (by omega))⟩

theorem ErrorModel_compute_agree (m : ErrorModel) (state : Nat) (clvp1 clvp2 : List ℚ)
    (h1 : m.states ≤ clvp1.length) (h2 : m.states ≤ clvp2.length) :
    (∃ f, m.compute_state_probs state clvp1 = .error f ∧
      m.compute_state_probs state clvp2 = .error f) ∨
    (∃ a b, m.compute_state_probs state clvp1 = .ok a ∧
      m.compute_state_probs state clvp2 = .ok b ∧
      a.length = clvp1.length ∧
      (∀ k, k < m.states → a[k]? = b[k]?) ∧
      (∀ k, m.states ≤ k → a[k]? = clvp1[k]?)) := by
  cases m with
  | uniform M => exact Uniform_compute_agree M state clvp1 clvp2 h1 h2
  | p17 M => exact P17_compute_agree M state clvp1 clvp2 h1 h2
  | pt19 M => exact PT19_compute_agree M state clvp1 clvp2 h1 h2

/-- C16: `compute_state_probs` overwrites and does not accumulate.  For every model
(Uniform, P17, PT19), mask and parameter state, and any two buffers of at least `_states`
cells: a call that returns leaves the first `_states` cells equal to what the same call
leaves in the other buffer (they depend on the mask and the parameters only, not on the
previous contents), leaves the cells at index `_states` and beyond as they were and the
length unchanged, and a call that faults on one buffer faults on the other; the call
does return on every non-zero mask up to the all-ones mask.  The routine is a `const`
member: it takes the model and yields only the buffer. -/
theorem compute_state_probs_overwrites :
    (∀ (m : ErrorModel) (state : Nat) (clvp1 clvp2 : List ℚ),
      m.states ≤ clvp1.length → m.states ≤ clvp2.length →
      (∀ f, m.compute_state_probs state clvp1 = .error f →
        m.compute_state_probs state clvp2 = .error f) ∧
      (∀ out1, m.compute_state_probs state clvp1 = .ok out1 →
        out1.length = clvp1.length ∧
        (∀ k, m.states ≤ k → out1[k]? = clvp1[k]?) ∧
        ∃ out2, m.compute_state_probs state clvp2 = .ok out2 ∧
          ∀ k, k < m.states → out1[k]? = out2[k]?)) ∧
    (∀ (n : Nat) (e : ℚ) (state : Nat) (clvp : List ℚ),
      n < 32 → 1 ≤ state → state ≤ 2 ^ n - 1 → n ≤ clvp.length →
      ∃ out, (ErrorModel.uniform ⟨n, e⟩).compute_state_probs state clvp = .ok out) ∧
    (∀ (e d : ℚ) (state : Nat) (clvp : List ℚ),
      1 ≤ state → state ≤ 2 ^ 10 - 1 → 10 ≤ clvp.length →
      (∃ out, (ErrorModel.p17 (GenotypeErrorModel.create e d)).compute_state_probs state clvp
        = .ok out) ∧
      (∃ out, (ErrorModel.pt19 (GenotypeErrorModel.create e d)).compute_state_probs state clvp
        = .ok out)) := by
  refine ⟨?_, ?_, ?_⟩
  · intro m state clvp1 clvp2 h1 h2
    rcases ErrorModel_compute_agree m state clvp1 clvp2 h1 h2 with
      ⟨f, hf1, hf2⟩ | ⟨a, b, ha, hb, hla, hin, hout⟩
    · refine ⟨?_, ?_⟩
      · intro g hg
        rw [hf1] at hg
        cases hg
        exact hf2
      · intro out1 ho
        rw [hf1] at ho
        cases ho
    · refine ⟨?_, ?_⟩
      · intro g hg
        rw [ha] at hg
        cases hg
      · intro out1 ho
        rw [ha] at ho
        cases ho
        exact ⟨hla, hout, b, hb, hin⟩
  · intro n e state clvp hn h1 h2 hbuf
    obtain ⟨s, hs⟩ := exists_lowest_set_bit (show state ≠ 0 by omega)
    by_cases hfull : state = 2 ^ n - 1
    · subst hfull
      obtain ⟨out, hrun, -, -, -⟩ := Uniform_compute_full n e clvp hn hbuf
      exact ⟨out, hrun⟩
    · obtain ⟨out, hrun, -, -, -⟩ :=
        Uniform_compute_eq n e state s clvp hn (by omega) (by omega) hs hbuf
      exact ⟨out, hrun⟩
  · intro e d state clvp h1 h2 hbuf
    obtain ⟨s, hs⟩ := exists_lowest_set_bit (show state ≠ 0 by omega)
    by_cases hfull : state = 2 ^ 10 - 1
    · obtain ⟨o17, h17, -, -, -⟩ := P17_compute_full e d state clvp hfull hbuf
      obtain ⟨o19, h19, -, -, -⟩ := PT19_compute_full e d state clvp hfull hbuf
      exact ⟨⟨o17, h17⟩, ⟨o19, h19⟩⟩
    · obtain ⟨o17, h17, -, -, -⟩ := P17_compute_eq e d state s clvp (by omega) hs hbuf
      obtain ⟨o19, h19, -, -, -⟩ := PT19_compute_eq e d state s clvp (by omega) hs hbuf
      exact ⟨⟨o17, h17⟩, ⟨o19, h19⟩⟩

theorem compute_state_probs_overwrites_witness :
    (∀ f, (ErrorModel.p17 (GenotypeErrorModel.create (1 / 10) (1 / 5))).compute_state_probs 6
        (List.replicate 12 7) = .error f →
      (ErrorModel.p17 (GenotypeErrorModel.create (1 / 10) (1 / 5))).compute_state_probs 6
        (List.replicate 10 0) = .error f) ∧
    (∀ out1, (ErrorModel.p17 (GenotypeErrorModel.create (1 / 10) (1 / 5))).compute_state_probs 6
        (List.replicate 12 7) = .ok out1 →
      out1.length = (List.replicate 12 (7 : ℚ)).length ∧
      (∀ k, (ErrorModel.p17 (GenotypeErrorModel.create (1 / 10) (1 / 5))).states ≤ k →
        out1[k]? = (List.replicate 12 (7 : ℚ))[k]?) ∧
      ∃ out2, (ErrorModel.p17 (GenotypeErrorModel.create (1 / 10) (1 / 5))).compute_state_probs 6
          (List.replicate 10 0) = .ok out2 ∧
        ∀ k, k < (ErrorModel.p17 (GenotypeErrorModel.create (1 / 10) (1 / 5))).states →
          out1[k]? = out2[k]?) :=
  compute_state_probs_overwrites.1 (ErrorModel.p17 (GenotypeErrorModel.create (1 / 10) (1 / 5))) 6
    (List.replicate 12 7) (List.replicate 10 0) (by decide) (by decide)

theorem toBytes_length (x : Word64) : (toBytes x).length = 8 := by
  simp [toBytes, SIZEOF_WORD]

theorem ofBytes_toBytes (x : Word64) : ofBytes (toBytes x) = x := by
  apply Fin.ext
  have hx : x.val < 2 ^ 64 := x.isLt
  simp only [ofBytes, toBytes, SIZEOF_WORD, List.range, List.range.loop, List.map, List.foldr]
  norm_num
  omega

theorem arrayBytes_length (vs : List Word64) : (arrayBytes vs).length = 8 * vs.length := by
  induction vs with
  | nil => rfl
  | cons v rest ih =>
    simp only [arrayBytes, List.length_append, toBytes_length, ih, List.length_cons]
    omega

theorem ptr_check_no_wrap (s : BinaryStream) (n : Nat) (haddr : s._addr + s._size < 2 ^ 64)
    (hn : s._addr + s._ptr + n < 2 ^ 64) :
    ptr_add (s._addr + s._ptr) n > ptr_add s._addr s._size ↔ s._ptr + n > s._size := by
  unfold ptr_add ADDR_BITS
  rw [Nat.mod_eq_of_lt hn, Nat.mod_eq_of_lt haddr]
  omega

theorem put_value_ok (s : BinaryStream) (v : Word64) (pre mid : List Byte)
    (hbuf : s._buf = pre ++ mid) (hp : s._ptr = pre.length) (hmid : 8 ≤ mid.length)
    (hsz : pre.length + 8 ≤ s._size) (haddr : s._addr + s._size < 2 ^ 64) :
    put_value s v = (.ok (), { _addr := s._addr, _buf := pre ++ toBytes v ++ mid.drop 8,
                               _ptr := pre.length + 8, _size := s._size }) := by
  have h1 : ¬ (ptr_add (s._addr + s._ptr) 8 > ptr_add s._addr s._size) := by
    rw [ptr_check_no_wrap s 8 haddr (by omega)]
    omega
  have h2 : 8 ≤ (toBytes v).length ∧ s._ptr + 8 ≤ s._buf.length := by
    rw [toBytes_length, hbuf, List.length_append]
    omega
  have h3 : List.take s._ptr s._buf = pre := by
    rw [hbuf, hp, List.take_left]
  have h4 : List.take 8 (toBytes v) = toBytes v :=
    List.take_of_length_le (by rw [toBytes_length])
  have h5 : List.drop (s._ptr + 8) s._buf = mid.drop 8 := by
    rw [hbuf, hp, List.drop_append]
  unfold put_value BinaryStream.write SIZEOF_WORD
  rw [if_neg h1, if_pos h2, h3, h4, h5, hp]

theorem get_value_ok (s : BinaryStream) (v v0 : Word64) (pre rest : List Byte)
    (hbuf : s._buf = pre ++ toBytes v ++ rest) (hp : s._ptr = pre.length)
    (hsz : pre.length + 8 ≤ s._size) (haddr : s._addr + s._size < 2 ^ 64) :
    get_value s v0 = (.ok (), { s with _ptr := pre.length + 8 }, v) := by
  have h1 : ¬ (ptr_add (s._addr + s._ptr) 8 > ptr_add s._addr s._size) := by
    rw [ptr_check_no_wrap s 8 haddr (by omega)]
    omega
  have h2 : s._ptr + 8 ≤ s._buf.length := by
    rw [hbuf, List.length_append, List.length_append, toBytes_length]
    omega
  have h3 : List.take 8 (List.drop s._ptr s._buf) = toBytes v := by
    rw [hbuf, hp, List.append_assoc, List.drop_left, ← toBytes_length v, List.take_left]
  unfold get_value BinaryStream.read SIZEOF_WORD
  rw [if_neg h1, if_pos h2]
  simp only [h3, ofBytes_toBytes]
  rw [hp]

theorem put_elements_ok (vs : List Word64) :
    ∀ (s : BinaryStream) (pre mid : List Byte),
      s._buf = pre ++ mid → s._ptr = pre.length → 8 * vs.length ≤ mid.length →
      pre.length + 8 * vs.length ≤ s._size → s._addr + s._size < 2 ^ 64 →
      put_elements s vs = (.ok (), { _addr := s._addr,
                                     _buf := pre ++ arrayBytes vs ++ mid.drop (8 * vs.length),
                                     _ptr := pre.length + 8 * vs.length, _size := s._size }) := by
  induction vs with
  | nil =>
    intro s pre mid hbuf hp _ _ _
    simp [put_elements, arrayBytes, ← hbuf, ← hp]
  | cons v rest ih =>
    intro s pre mid hbuf hp hmid hsz haddr
    rw [List.length_cons] at hmid hsz
    have hstep := put_value_ok s v pre mid hbuf hp (by omega) (by omega) haddr
    have hnext := ih { _addr := s._addr, _buf := pre ++ toBytes v ++ mid.drop 8,
                       _ptr := pre.length + 8, _size := s._size }
      (pre ++ toBytes v) (mid.drop 8) rfl
      (by simp [toBytes_length]) (by rw [List.length_drop]; omega)
      (by simp only [List.length_append, toBytes_length]; omega) haddr
    have e1 : 8 + 8 * rest.length = 8 * (rest.length + 1) := by omega
    have e2 : pre.length + 8 + 8 * rest.length = pre.length + 8 * (rest.length + 1) := by omega
    rw [put_elements, hstep]
    simp only []
    rw [hnext]
    simp only [arrayBytes, List.append_assoc, List.drop_drop, List.length_append,
      toBytes_length, List.length_cons, e1, e2]

theorem get_elements_ok (vs : List Word64) :
    ∀ (s : BinaryStream) (pre rest : List Byte) (dst : List Word64),
      s._buf = pre ++ arrayBytes vs ++ rest → s._ptr = pre.length → dst.length = vs.length →
      pre.length + 8 * vs.length ≤ s._size → s._addr + s._size < 2 ^ 64 →
      get_elements s dst = (.ok (), { s with _ptr := pre.length + 8 * vs.length }, vs) := by
  induction vs with
  | nil =>
    intro s pre rest dst _ hp hd _ _
    have : dst = [] := List.length_eq_zero.mp hd
    subst this
    simp [get_elements, ← hp]
  | cons v tail ih =>
    intro s pre rest dst hbuf hp hd hsz haddr
    rw [List.length_cons] at hd hsz
    cases dst with
    | nil => simp at hd
    | cons d0 dtail =>
      have hstep := get_value_ok s v d0 pre (arrayBytes tail ++ rest)
        (by rw [hbuf, arrayBytes]; simp [List.append_assoc]) hp (by omega) haddr
      have hnext := ih { s with _ptr := pre.length + 8 } (pre ++ toBytes v) rest dtail
        (by simp only [hbuf, arrayBytes, List.append_assoc])
        (by simp [toBytes_length]) (by simpa using hd)
        (by simp only [List.length_append, toBytes_length]; omega) haddr
      have e2 : pre.length + 8 + 8 * tail.length = pre.length + 8 * (tail.length + 1) := by
        omega
      rw [get_elements, hstep]
      simp only []
      rw [hnext]
      simp only [List.length_append, toBytes_length, List.length_cons, e2]

theorem vector_resize_length (vec : List Word64) (n : Nat) : (vector_resize vec n).length = n := by
  simp only [vector_resize, List.length_append, List.length_take, List.length_replicate]
  omega

theorem put_vector_ok (vec : List Word64) (s : BinaryStream)
    (hpos : s._ptr = 0) (hcap : 8 + 8 * vec.length ≤ s._size) (hmem : s._size ≤ s._buf.length)
    (haddr : s._addr + s._size < 2 ^ 64) :
    put_vector s vec = (.ok (),
      { _addr := s._addr,
        _buf := toBytes ⟨vec.length % 2 ^ 64, Nat.mod_lt _ (Nat.two_pow_pos 64)⟩ ++ arrayBytes vec
                  ++ s._buf.drop (8 + 8 * vec.length),
        _ptr := 8 + 8 * vec.length, _size := s._size }) := by
  have h1 := put_value_ok s ⟨vec.length % 2 ^ 64, Nat.mod_lt _ (Nat.two_pow_pos 64)⟩ [] s._buf
    (by simp) (by simpa using hpos) (by omega) (by simp; omega) haddr
  have h2 := put_elements_ok vec
    { _addr := s._addr,
      _buf := [] ++ toBytes ⟨vec.length % 2 ^ 64, Nat.mod_lt _ (Nat.two_pow_pos 64)⟩
                ++ s._buf.drop 8,
      _ptr := ([] : List Byte).length + 8, _size := s._size }
    (toBytes ⟨vec.length % 2 ^ 64, Nat.mod_lt _ (Nat.two_pow_pos 64)⟩) (s._buf.drop 8)
    (by simp) (by simp [toBytes_length]) (by rw [List.length_drop]; omega)
    (by simp only [toBytes_length]; omega) haddr
  rw [put_vector, h1]
  simp only []
  rw [h2]
  simp only [toBytes_length, List.drop_drop]

theorem get_vector_ok (vec dst : List Word64) (s : BinaryStream) (rest : List Byte)
    (hbuf : s._buf = toBytes ⟨vec.length % 2 ^ 64, Nat.mod_lt _ (Nat.two_pow_pos 64)⟩
      ++ arrayBytes vec ++ rest)
    (hpos : s._ptr = 0) (hcap : 8 + 8 * vec.length ≤ s._size) (hlen : vec.length < 2 ^ 64)
    (haddr : s._addr + s._size < 2 ^ 64) :
    get_vector s dst = (.ok (), { s with _ptr := 8 + 8 * vec.length }, vec) := by
  have h1 := get_value_ok s ⟨vec.length % 2 ^ 64, Nat.mod_lt _ (Nat.two_pow_pos 64)⟩ 0 []
    (arrayBytes vec ++ rest) (by rw [hbuf]; simp) (by simpa using hpos) (by simp; omega) haddr
  have hval : vec.length % 2 ^ 64 = vec.length := Nat.mod_eq_of_lt hlen
  have h2 := get_elements_ok vec { s with _ptr := ([] : List Byte).length + 8 }
    (toBytes ⟨vec.length % 2 ^ 64, Nat.mod_lt _ (Nat.two_pow_pos 64)⟩) rest
    (vector_resize dst vec.length) hbuf (by simp [toBytes_length])
    (vector_resize_length dst vec.length) (by simp only [toBytes_length]; omega) haddr
  rw [get_vector, h1]
  simp only [hval]
  rw [h2]
  simp only [toBytes_length]

/-- C14: serialization round trip of the parameter vector.  For every vector `vec` of
8-byte elements (bit patterns of doubles) and every `BinaryStream` at position 0 whose
capacity is at least `sizeof(size_t) + |vec| * sizeof(double)` (and whose buffer holds
that many bytes inside the 64-bit address space), writing `vec` with the vector `operator<<`, calling `reset()` and
reading with the vector `operator>>` into any vector `dst` succeeds and yields a vector
of the same length with bit-identical elements; hence, under any reading `val` of the
bit patterns as values, `params(values)` on the result stores the same parameters as on
`vec`, and `compute_state_probs` then gives the same outputs. -/
theorem vector_serialization_round_trip (vec dst : List Word64) (s : BinaryStream)
    (hpos : s.pos = 0) (hcap : SIZEOF_WORD + vec.length * SIZEOF_WORD ≤ s.size)
    (hmem : s.size ≤ s._buf.length) (haddr : s._addr + s.size < 2 ^ 64) :
    ∃ s1 s2 vec1,
      put_vector s vec = (.ok (), s1) ∧
      get_vector s1.reset dst = (.ok (), s2, vec1) ∧
      vec1.length = vec.length ∧ vec1 = vec ∧
      s1.pos = SIZEOF_WORD + vec.length * SIZEOF_WORD ∧
      (∀ (val : Word64 → ℚ) (M : UniformErrorModel),
        M.set_params (vec1.map val) = M.set_params (vec.map val) ∧
        ∀ state clvp, (M.set_params (vec1.map val)).2.compute_state_probs state clvp
          = (M.set_params (vec.map val)).2.compute_state_probs state clvp) ∧
      (∀ (val : Word64 → ℚ) (M : GenotypeErrorModel),
        M.set_params (vec1.map val) = M.set_params (vec.map val) ∧
        ∀ state clvp,
          P17GenotypeErrorModel.compute_state_probs (M.set_params (vec1.map val)).2 state clvp
            = P17GenotypeErrorModel.compute_state_probs (M.set_params (vec.map val)).2 state clvp ∧
          PT19GenotypeErrorModel.compute_state_probs (M.set_params (vec1.map val)).2 state clvp
            = PT19GenotypeErrorModel.compute_state_probs (M.set_params (vec.map val)).2 state clvp) := by
  simp only [BinaryStream.pos, BinaryStream.size, SIZEOF_WORD] at hpos hcap hmem haddr
  have hcap' : 8 + 8 * vec.length ≤ s._size := by omega
  have hput := put_vector_ok vec s hpos hcap' hmem haddr
  have hget := get_vector_ok vec dst
    (BinaryStream.reset
      { _addr := s._addr,
        _buf := toBytes ⟨vec.length % 2 ^ 64, Nat.mod_lt _ (Nat.two_pow_pos 64)⟩ ++ arrayBytes vec
                  ++ s._buf.drop (8 + 8 * vec.length),
        _ptr := 8 + 8 * vec.length, _size := s._size })
    (s._buf.drop (8 + 8 * vec.length)) rfl rfl hcap' (by omega) haddr
  refine ⟨_, _, vec, hput, hget, rfl, rfl, ?_, ?_, ?_⟩
  · simp only [BinaryStream.pos, SIZEOF_WORD]
    omega
  · intro val M
    exact ⟨rfl, fun _ _ => rfl⟩
  · intro val M
    exact ⟨rfl, fun _ _ => ⟨rfl, rfl⟩⟩

theorem vector_serialization_round_trip_witness :
    ∃ s1 s2 vec1,
      put_vector (BinaryStream.create 4096 (List.replicate 24 0) 24) [3, 5] = (.ok (), s1) ∧
      get_vector s1.reset [] = (.ok (), s2, vec1) ∧
      vec1.length = [(3 : Word64), 5].length ∧ vec1 = [3, 5] ∧
      s1.pos = SIZEOF_WORD + [(3 : Word64), 5].length * SIZEOF_WORD ∧
      (∀ (val : Word64 → ℚ) (M : UniformErrorModel),
        M.set_params (vec1.map val) = M.set_params ([(3 : Word64), 5].map val) ∧
        ∀ state clvp, (M.set_params (vec1.map val)).2.compute_state_probs state clvp
          = (M.set_params ([(3 : Word64), 5].map val)).2.compute_state_probs state clvp) ∧
      (∀ (val : Word64 → ℚ) (M : GenotypeErrorModel),
        M.set_params (vec1.map val) = M.set_params ([(3 : Word64), 5].map val) ∧
        ∀ state clvp,
          P17GenotypeErrorModel.compute_state_probs (M.set_params (vec1.map val)).2 state clvp
            = P17GenotypeErrorModel.compute_state_probs
                (M.set_params ([(3 : Word64), 5].map val)).2 state clvp ∧
          PT19GenotypeErrorModel.compute_state_probs (M.set_params (vec1.map val)).2 state clvp
            = PT19GenotypeErrorModel.compute_state_probs
                (M.set_params ([(3 : Word64), 5].map val)).2 state clvp) :=
  vector_serialization_round_trip [3, 5] [] (BinaryStream.create 4096 (List.replicate 24 0) 24)
    (by decide) (by decide) (by decide) (by decide)

theorem P17_PT19_value_no_dropout (e : ℚ) (s k : Nat) :
    P17_value e 0 s k = PT19_value e 0 s k := by
  unfold P17_value PT19_value
  split_ifs <;> ring

theorem buffers_eq_of_cells (a b clvp : List ℚ) (n : Nat)
    (hin : ∀ k, k < n → a[k]? = b[k]?)
    (houta : ∀ k, n ≤ k → a[k]? = clvp[k]?) (houtb : ∀ k, n ≤ k → b[k]? = clvp[k]?) :
    a = b := by
  apply List.ext_getElem?
  intro k
  by_cases hk : k < n
  · exact hin k hk
  · rw [houta k (by omega), houtb k (by omega)]

/-- C21: PT19 reduces to P17 when there is no dropout, and the two models are distinct.
With dropout rate `d = 0`, for every sequencing-error rate `e` and every mask `m` with
`1 ≤ m ≤ 2^10 - 1`, the P17 and the PT19 `compute_state_probs` succeed and leave the same
buffer (the same ten values); and for every `e`, `d` with `e * d ≠ 0` and the single-bit
mask of a homozygous state, the two outputs differ at some index. -/
theorem PT19_reduces_to_P17_without_dropout :
    (∀ (e : ℚ) (m : Nat) (clvp : List ℚ), 1 ≤ m → m ≤ 2 ^ 10 - 1 → 10 ≤ clvp.length →
      ∃ o17 o19,
        P17GenotypeErrorModel.compute_state_probs (GenotypeErrorModel.create e 0) m clvp
          = .ok o17 ∧
        PT19GenotypeErrorModel.compute_state_probs (GenotypeErrorModel.create e 0) m clvp
          = .ok o19 ∧
        o17 = o19) ∧
    (∀ (e d : ℚ) (s : Nat) (clvp : List ℚ), e * d ≠ 0 → s < 4 → 10 ≤ clvp.length →
      ∃ o17 o19,
        P17GenotypeErrorModel.compute_state_probs (GenotypeErrorModel.create e d) (2 ^ s) clvp
          = .ok o17 ∧
        PT19GenotypeErrorModel.compute_state_probs (GenotypeErrorModel.create e d) (2 ^ s) clvp
          = .ok o19 ∧
        ∃ k, k < 10 ∧ o17[k]? ≠ o19[k]?) := by
  refine ⟨?_, ?_⟩
  · intro e m clvp h1 h2 hbuf
    by_cases hfull : m = 2 ^ 10 - 1
    · obtain ⟨o17, h17, -, v17, r17⟩ := P17_compute_full e 0 m clvp hfull hbuf
      obtain ⟨o19, h19, -, v19, r19⟩ := PT19_compute_full e 0 m clvp hfull hbuf
      exact ⟨o17, o19, h17, h19, buffers_eq_of_cells o17 o19 clvp 10
        (fun k hk => by rw [v17 k hk, v19 k hk]) r17 r19⟩
    · obtain ⟨s, hs⟩ := exists_lowest_set_bit (show m ≠ 0 by omega)
      obtain ⟨o17, h17, -, v17, r17⟩ := P17_compute_eq e 0 m s clvp (by omega) hs hbuf
      obtain ⟨o19, h19, -, v19, r19⟩ := PT19_compute_eq e 0 m s clvp (by omega) hs hbuf
      exact ⟨o17, o19, h17, h19, buffers_eq_of_cells o17 o19 clvp 10
        (fun k hk => by rw [v17 k hk, v19 k hk, P17_PT19_value_no_dropout]) r17 r19⟩
  · intro e d s clvp hed hs hbuf
    obtain ⟨o17, h17, -, v17⟩ := P17_single_bit e d s clvp (by omega) hbuf
    obtain ⟨o19, h19, -, v19⟩ := PT19_single_bit e d s clvp (by omega) hbuf
    refine ⟨o17, o19, h17, h19, (s + 1) % 4, by omega, ?_⟩
    rw [v17 _ (by omega), v19 _ (by omega)]
    intro heq
    have hval := Option.some.inj heq
    apply hed
    interval_cases s <;> simp +decide [P17_value, PT19_value, HOMO] at hval <;>
      (rcases hval with h | h <;> simp [h])

theorem PT19_reduces_to_P17_without_dropout_witness :
    (∃ o17 o19,
        P17GenotypeErrorModel.compute_state_probs (GenotypeErrorModel.create (1 / 10) 0) 6
          (List.replicate 10 0) = .ok o17 ∧
        PT19GenotypeErrorModel.compute_state_probs (GenotypeErrorModel.create (1 / 10) 0) 6
          (List.replicate 10 0) = .ok o19 ∧
        o17 = o19) ∧
    (∃ o17 o19,
        P17GenotypeErrorModel.compute_state_probs (GenotypeErrorModel.create (1 / 10) (1 / 5))
          (2 ^ 0) (List.replicate 10 0) = .ok o17 ∧
        PT19GenotypeErrorModel.compute_state_probs (GenotypeErrorModel.create (1 / 10) (1 / 5))
          (2 ^ 0) (List.replicate 10 0) = .ok o19 ∧
        ∃ k, k < 10 ∧ o17[k]? ≠ o19[k]?) :=
  ⟨PT19_reduces_to_P17_without_dropout.1 (1 / 10) 6 (List.replicate 10 0)
     (by decide) (by decide) (by decide),
   PT19_reduces_to_P17_without_dropout.2 (1 / 10) (1 / 5) 0 (List.replicate 10 0)
     (by norm_num) (by decide) (by decide)⟩

/-- C22: the genotype models treat a partially ambiguous observation as its lowest set
bit alone.  For P17 and for PT19, for every `e`, `d` and every mask `m` with
`1 ≤ m < 2^10 - 1` whose lowest set bit has index `s`, and whatever the two buffers held
before, `compute_state_probs(m)` on the one and `compute_state_probs(2^s)` on the other
both succeed and leave the same value in each of the ten cells `0 .. 9`: the ten values
are written, they do not depend on the buffer, and the other set bits of `m` have no
influence on them. -/
theorem genotype_partial_mask_is_lowest_bit (e d : ℚ) (m s : Nat) (clvp1 clvp2 : List ℚ)
    (_h1 : 1 ≤ m) (h2 : m < 2 ^ 10 - 1) (hs : IsLowestSetBit m s)
    (hbuf1 : 10 ≤ clvp1.length) (hbuf2 : 10 ≤ clvp2.length) :
    (∃ o o1,
      P17GenotypeErrorModel.compute_state_probs (GenotypeErrorModel.create e d) m clvp1
        = .ok o ∧
      P17GenotypeErrorModel.compute_state_probs (GenotypeErrorModel.create e d) (2 ^ s) clvp2
        = .ok o1 ∧
      ∀ k, k < 10 → ∃ v, o[k]? = some v ∧ o1[k]? = some v) ∧
    (∃ o o1,
      PT19GenotypeErrorModel.compute_state_probs (GenotypeErrorModel.create e d) m clvp1
        = .ok o ∧
      PT19GenotypeErrorModel.compute_state_probs (GenotypeErrorModel.create e d) (2 ^ s) clvp2
        = .ok o1 ∧
      ∀ k, k < 10 → ∃ v, o[k]? = some v ∧ o1[k]? = some v) := by
  have hs10 : s < 10 := lowest_lt_of_lt_pow (n := 10) (by omega) hs
  obtain ⟨a, ha, -, va, -⟩ := P17_compute_eq e d m s clvp1 h2 hs hbuf1
  obtain ⟨a1, ha1, -, va1, -⟩ :=
    P17_compute_eq e d (2 ^ s) s clvp2 (two_pow_lt_full hs10) (isLowestSetBit_two_pow s) hbuf2
  obtain ⟨b, hb, -, vb, -⟩ := PT19_compute_eq e d m s clvp1 h2 hs hbuf1
  obtain ⟨b1, hb1, -, vb1, -⟩ :=
    PT19_compute_eq e d (2 ^ s) s clvp2 (two_pow_lt_full hs10) (isLowestSetBit_two_pow s) hbuf2
  exact ⟨⟨a, a1, ha, ha1, fun k hk => ⟨_, va k hk, va1 k hk⟩⟩,
    ⟨b, b1, hb, hb1, fun k hk => ⟨_, vb k hk, vb1 k hk⟩⟩⟩

theorem genotype_partial_mask_is_lowest_bit_witness :
    (∃ o o1,
      P17GenotypeErrorModel.compute_state_probs (GenotypeErrorModel.create (1 / 10) (1 / 5)) 22
        (List.replicate 10 0) = .ok o ∧
      P17GenotypeErrorModel.compute_state_probs (GenotypeErrorModel.create (1 / 10) (1 / 5))
        (2 ^ 1) (List.replicate 12 7) = .ok o1 ∧
      ∀ k, k < 10 → ∃ v, o[k]? = some v ∧ o1[k]? = some v) ∧
    (∃ o o1,
      PT19GenotypeErrorModel.compute_state_probs (GenotypeErrorModel.create (1 / 10) (1 / 5)) 22
        (List.replicate 10 0) = .ok o ∧
      PT19GenotypeErrorModel.compute_state_probs (GenotypeErrorModel.create (1 / 10) (1 / 5))
        (2 ^ 1) (List.replicate 12 7) = .ok o1 ∧
      ∀ k, k < 10 → ∃ v, o[k]? = some v ∧ o1[k]? = some v) :=
  genotype_partial_mask_is_lowest_bit (1 / 10) (1 / 5) 22 1 (List.replicate 10 0)
    (List.replicate 12 7) (by decide) (by decide) (by decide) (by decide) (by decide)

theorem BinaryStream_bounds_checked_without_wrap (s : BinaryStream) (data : List Byte) (n : Nat)
    (hp : s.pos ≤ s.size) (hmem : s.size ≤ s._buf.length)
    (haddr : s._addr + s.size < 2 ^ 64) (hn : s._addr + s.pos + n < 2 ^ 64)
    (hdata : data.length = n) :
    ((s.write data n).1 = .error (.out_of_range "BinaryStream::put") ↔ s.pos + n > s.size) ∧
    ((s.read n).1 = .error (.out_of_range "BinaryStream::get") ↔ s.pos + n > s.size) ∧
    (s.pos + n > s.size → (s.write data n).2 = s ∧ (s.read n).2 = s) ∧
    (s.pos + n ≤ s.size →
      (s.write data n).1 = .ok () ∧
      (s.write data n).2._buf = s._buf.take s.pos ++ data ++ s._buf.drop (s.pos + n) ∧
      (s.write data n).2._buf.length = s._buf.length ∧
      (s.write data n).2.pos = s.pos + n ∧
      (s.write data n).2.size = s.size ∧
      (s.read n).1 = .ok ((s._buf.drop s.pos).take n) ∧
      ((s._buf.drop s.pos).take n).length = n ∧
      (s.read n).2 = { s with _ptr := s.pos + n }) ∧
    ((s.write data n).2.pos ≤ (s.write data n).2.size ∧
      (s.read n).2.pos ≤ (s.read n).2.size ∧
      s.reset.pos = 0 ∧ s.reset.pos ≤ s.reset.size ∧ s.reset.size = s.size) := by
  simp only [BinaryStream.pos, BinaryStream.size] at hp hmem haddr hn ⊢
  have hchk := ptr_check_no_wrap s n haddr hn
  by_cases hover : s._ptr + n > s._size
  · have hc : ptr_add (s._addr + s._ptr) n > ptr_add s._addr s._size := hchk.mpr hover
    have hw : s.write data n = (.error (.out_of_range "BinaryStream::put"), s) := by
      unfold BinaryStream.write
      rw [if_pos hc]
    have hr : s.read n = (.error (.out_of_range "BinaryStream::get"), s) := by
      unfold BinaryStream.read
      rw [if_pos hc]
    rw [hw, hr]
    refine ⟨by simp [hover], by simp [hover], fun _ => ⟨rfl, rfl⟩, fun h => by omega, ?_⟩
    simp [BinaryStream.reset, hp]
  · have hc : ¬ ptr_add (s._addr + s._ptr) n > ptr_add s._addr s._size :=
      fun h => hover (hchk.mp h)
    have hfit : n ≤ data.length ∧ s._ptr + n ≤ s._buf.length := by omega
    have hw : s.write data n = (.ok (), { s with
        _buf := s._buf.take s._ptr ++ data ++ s._buf.drop (s._ptr + n),
        _ptr := s._ptr + n }) := by
      unfold BinaryStream.write
      rw [if_neg hc, if_pos hfit, List.take_of_length_le (show data.length ≤ n by omega)]
    have hr : s.read n = (.ok ((s._buf.drop s._ptr).take n), { s with _ptr := s._ptr + n }) := by
      unfold BinaryStream.read
      rw [if_neg hc, if_pos hfit.2]
    rw [hw, hr]
    refine ⟨by simp [hover], by simp [hover], fun h => absurd h hover, fun _ => ?_, ?_⟩
    · refine ⟨rfl, rfl, ?_, rfl, rfl, rfl, ?_, rfl⟩
      · simp only [List.length_append, List.length_take, List.length_drop]
        omega
      · simp only [List.length_take, List.length_drop]
        omega
    · exact ⟨show s._ptr + n ≤ s._size by omega, show s._ptr + n ≤ s._size by omega, rfl,
        Nat.zero_le _, rfl⟩

/-- C23 against the code, at a size that makes `_ptr + size` wrap around.  On a stream
over 16 bytes at address 4096, at position 0, a request of `n = 2^64 - 1` bytes has
`p + n > C`, yet the sum `_ptr + n` wraps to address 4095, below `_buf + _size`, so
neither `read` nor `write` throws `out_of_range`: both go on to the `memcpy`, which
leaves the buffer. -/
theorem BinaryStream_bounds_check_wraps :
    (BinaryStream.create 4096 (List.replicate 16 0) 16).pos + (2 ^ 64 - 1)
      > (BinaryStream.create 4096 (List.replicate 16 0) 16).size ∧
    ptr_add (4096 + 0) (2 ^ 64 - 1) = 4095 ∧
    (BinaryStream.create 4096 (List.replicate 16 0) 16).read (2 ^ 64 - 1)
      = (.error .memoryFault, BinaryStream.create 4096 (List.replicate 16 0) 16) ∧
    (BinaryStream.create 4096 (List.replicate 16 0) 16).write (toBytes 0) (2 ^ 64 - 1)
      = (.error .memoryFault, BinaryStream.create 4096 (List.replicate 16 0) 16) := by
  refine ⟨by decide, by decide, ?_, ?_⟩
  · rfl
  · rfl

theorem BinaryStream_bounds_checked_without_wrap_example :
    ((BinaryStream.create 4096 (List.replicate 16 0) 16).write (toBytes 7) 8).1 = .ok () ∧
    ((BinaryStream.create 4096 (List.replicate 16 0) 16).write (toBytes 7) 8).2.pos = 8 ∧
    ((BinaryStream.create 4096 (List.replicate 4 0) 4).write (toBytes 7) 8).1
      = .error (.out_of_range "BinaryStream::put") ∧
    ((BinaryStream.create 4096 (List.replicate 4 0) 4).write (toBytes 7) 8).2
      = BinaryStream.create 4096 (List.replicate 4 0) 4 :=
  have h1 := BinaryStream_bounds_checked_without_wrap
    (BinaryStream.create 4096 (List.replicate 16 0) 16) (toBytes 7) 8
    (by decide) (by decide) (by decide) (by decide) (by decide)
  have h2 := BinaryStream_bounds_checked_without_wrap
    (BinaryStream.create 4096 (List.replicate 4 0) 4) (toBytes 7) 8
    (by decide) (by decide) (by decide) (by decide) (by decide)
  ⟨(h1.2.2.2.1 (by decide)).1, (h1.2.2.2.1 (by decide)).2.2.2.1, h2.1.mpr (by decide),
    (h2.2.2.1 (by decide)).1⟩

end RaxmlNg
